import Mathlib

/-!
Shallow embedding of the mailbox synchronization engine of the gmail-client-ai
repository (src/server/services/gmail-sync.ts and src/server/gmail.ts), and
proofs about the testable properties of its specification.

The embedding follows the batch pipeline variant of the sync service
(src/unnamed/part_007), which is the variant the batch-oriented claims cite:
`syncBatch`, `syncThreadsBulk`, `syncThreadLabelsBulk`, `syncAttachment`,
`completeSyncJob`, `updateSyncProgress`, `syncLabels`, plus the pure
extraction helpers `extractEmailContent`, `getHeaderValue` and
`parseEmailAddresses` from src/server/gmail.ts (src/unnamed/part_006).

External collaborators (the Gmail API, the blob store, the wall clock) are
parameters of the embedded functions; the record store is an explicit `Store`
value threaded through every operation, with fresh row ids drawn from a
counter, mirroring the Prisma row model.
-/

namespace GmailSyncModel

/-- JS truthiness of an optional string: null, undefined and the empty string
are falsy; every other string is truthy. -/
def optStrTruthy : Option String → Bool
  | none => false
  | some s => s ≠ ""

/-- JS `a || b` on strings: returns `b` exactly when `a` is the empty string. -/
def jsOrStr (a b : String) : String := if a = "" then b else a

/-- JS `x || null` on an optional string: the empty string collapses to null. -/
def normStrOpt : Option String → Option String
  | none => none
  | some s => if s = "" then none else some s

/-- JS Math.round on a rational number: round half away from zero; the sync
code only ever rounds non-negative values, where this is floor of q + 1/2. -/
def jsRound (q : ℚ) : ℤ := ⌊q + 1/2⌋

/-- Stands for `Buffer.from(data, "base64").toString("utf-8")`: an
uninterpreted pure decoding of the transported body data. The sync logic
never branches on the decoded text, only on its presence, so the decoder is
modelled as the identity on the transported string. -/
def base64ToUtf8 (s : String) : String := s

/-- Replace the first element of the list satisfying `p` by its image under
`f`; models a Prisma update through a unique key. -/
def updateFirst (p : α → Bool) (f : α → α) : List α → List α
  | [] => []
  | x :: xs => if p x then f x :: xs else x :: updateFirst p f xs

/-- Lookup in an association list built like a JS `Map` from a list of
entries: a later entry with the same key overwrites an earlier one. -/
def lookupMapStr (entries : List (String × Nat)) (k : String) : Option Nat :=
  (entries.reverse.find? (fun e => e.1 = k)).map (·.2)

/-! ## Gmail API payload shapes (src/server/gmail.ts) -/

structure Header where
  name : String
  value : String
deriving DecidableEq, Repr

structure PartBody where
  attachmentId : Option String
  size : Nat
  data : Option String
deriving DecidableEq, Repr

/-- One (possibly nested) multipart payload part of a Gmail message. The
filename is the empty string when absent, matching the JS truthiness test the
extractor applies to it; an absent sub-part array behaves exactly like an
empty one, so sub-parts are a plain list. -/
inductive PayloadPart : Type where
  | mk (mimeType : String) (filename : String) (body : Option PartBody)
       (parts : List PayloadPart)

def PayloadPart.mimeType : PayloadPart → String
  | .mk m _ _ _ => m

def PayloadPart.filename : PayloadPart → String
  | .mk _ f _ _ => f

def PayloadPart.body : PayloadPart → Option PartBody
  | .mk _ _ b _ => b

def PayloadPart.parts : PayloadPart → List PayloadPart
  | .mk _ _ _ p => p

structure RootBody where
  size : Nat
  data : Option String
deriving DecidableEq, Repr

structure MessagePayload where
  headers : List Header
  parts : Option (List PayloadPart)
  body : Option RootBody
  mimeType : Option String

structure GmailMessage where
  id : String
  threadId : String
  labelIds : List String
  snippet : String
  payload : MessagePayload
  internalDate : String

structure GmailLabel where
  id : String
  name : String
  type : String
  messageListVisibility : Option String
  labelListVisibility : Option String
  colorBackground : Option String
deriving DecidableEq, Repr

/-- Result of `gmail.users.threads.get`: the full thread with its messages. -/
structure GmailThreadData where
  id : String
  snippet : String
  messages : List GmailMessage

/-- One stub from a `threads.list` page. -/
structure ThreadStub where
  id : String
deriving DecidableEq, Repr

/-- Raw response of `gmail.users.threads.list`. -/
structure ListThreadsResp where
  threads : Option (List ThreadStub)
  nextPageToken : Option String
  resultSizeEstimate : Option Nat
deriving DecidableEq, Repr

/-! ## Header and content extraction (src/server/gmail.ts) -/

/-- `getHeaderValue`: first header whose name matches case-insensitively;
the empty string when absent. -/
def getHeaderValue (headers : List Header) (name : String) : String :=
  match headers.find? (fun h => h.name.toLower = name.toLower) with
  | some h => h.value
  | none => ""

/-- `parseEmailAddresses`: split on commas, trim, drop empty entries. -/
def parseEmailAddresses (addresses : String) : List String :=
  if addresses = "" then []
  else ((addresses.splitOn ",").map (fun a => a.trim)).filter (fun a => a ≠ "")

structure AttachmentDescr where
  filename : String
  mimeType : String
  attachmentId : String
  size : Nat
deriving DecidableEq, Repr

structure ExtractResult where
  html : Option String
  text : Option String
  attachments : List AttachmentDescr
deriving DecidableEq, Repr

mutual

/-- `processPayloadPart` of `extractEmailContent`: a part with a truthy
filename and a truthy body.attachmentId is recorded as an attachment
descriptor and processing of the part stops; otherwise text/html and
text/plain bodies with truthy data set the html and text fields, and the
sub-parts are processed recursively. -/
def processPayloadPart (st : ExtractResult) (p : PayloadPart) : ExtractResult :=
  match p with
  | .mk mimeType filename body parts =>
    if filename ≠ "" ∧ optStrTruthy (body.bind PartBody.attachmentId) then
      { st with attachments := st.attachments ++
          [{ filename := filename, mimeType := mimeType,
             attachmentId := (body.bind PartBody.attachmentId).getD "",
             size := (body.map PartBody.size).getD 0 }] }
    else
      let st1 :=
        if mimeType = "text/html" ∧ optStrTruthy (body.bind PartBody.data) then
          { st with html := some (base64ToUtf8 ((body.bind PartBody.data).getD "")) }
        else if mimeType = "text/plain" ∧ optStrTruthy (body.bind PartBody.data) then
          { st with text := some (base64ToUtf8 ((body.bind PartBody.data).getD "")) }
        else st
      processParts st1 parts
termination_by sizeOf p

/-- Sequential processing of a list of sibling payload parts. -/
def processParts (st : ExtractResult) (ps : List PayloadPart) : ExtractResult :=
  match ps with
  | [] => st
  | p :: rest => processParts (processPayloadPart st p) rest
termination_by sizeOf ps

end

/-- `extractEmailContent`: walk the multipart payload when a parts array is
present, otherwise read a simple body at the root level. -/
def extractEmailContent (m : GmailMessage) : ExtractResult :=
  let result : ExtractResult := { html := none, text := none, attachments := [] }
  match m.payload.parts with
  | some parts => processParts result parts
  | none =>
    match m.payload.body with
    | some b =>
      if optStrTruthy b.data then
        if m.payload.mimeType = some "text/html" then
          { result with html := some (base64ToUtf8 (b.data.getD "")) }
        else if m.payload.mimeType = some "text/plain" then
          { result with text := some (base64ToUtf8 (b.data.getD "")) }
        else result
      else result
    | none => result

/-! ## Record store rows and state -/

inductive JobStatus : Type where
  | RUNNING
  | COMPLETED
  | FAILED
deriving DecidableEq, Repr

inductive SyncType : Type where
  | FULL
  | PARTIAL
deriving DecidableEq, Repr

inductive LabelType : Type where
  | SYSTEM
  | USER
deriving DecidableEq, Repr

structure SyncJobRow where
  id : Nat
  userId : String
  status : JobStatus
  type : SyncType
  processedItems : Nat
  totalItems : Nat
  progress : ℤ
  nextPageToken : Option String
  startedAt : Nat
  completedAt : Option Nat
  error : Option String
deriving DecidableEq, Repr

structure ThreadRow where
  id : Nat
  userId : String
  gmailThreadId : String
  subject : String
  snippet : String
  lastMessageDate : String
  unread : Bool
  starred : Bool
  important : Bool
  messageCount : Nat
deriving DecidableEq, Repr

structure MessageRow where
  id : Nat
  threadId : Nat
  gmailMessageId : String
  gmailThreadId : String
  fromAddr : String
  toAddr : List String
  cc : List String
  bcc : List String
  subject : String
  snippet : String
  date : String
  htmlS3Key : Option String
  textContent : Option String
  inReplyTo : Option String
  references : List String
  labelIds : List String
deriving DecidableEq, Repr

structure AttachmentRow where
  id : Nat
  messageId : Nat
  filename : String
  mimeType : String
  size : Nat
  s3Key : String
  gmailAttachmentId : String
deriving DecidableEq, Repr

structure LabelRow where
  id : Nat
  userId : String
  gmailLabelId : String
  name : String
  type : LabelType
  color : Option String
  messageListVisibility : Option String
  labelListVisibility : Option String
deriving DecidableEq, Repr

structure LabelThreadRow where
  labelId : Nat
  threadId : Nat
deriving DecidableEq, Repr

structure UserRow where
  id : String
  syncStatus : String
  lastSyncedAt : Option Nat
deriving DecidableEq, Repr

/-- The record store plus the blob store, with a counter supplying fresh row
ids and dates modelled as the source strings they are parsed from (the Date
constructor is a pure function of that string). The blob store is a key to
content map; a put overwrites the previous object under the key. -/
structure Store where
  threads : List ThreadRow
  messages : List MessageRow
  attachments : List AttachmentRow
  labels : List LabelRow
  labelThreads : List LabelThreadRow
  syncJobs : List SyncJobRow
  users : List UserRow
  s3Objects : List (String × String)
  nextId : Nat
deriving DecidableEq, Repr

/-- `uploadToS3(key, content, contentType)`: put by key into the blob store,
replacing any existing object under the key. -/
def uploadToS3 (key content : String) (s : Store) : Store :=
  { s with s3Objects := (s.s3Objects.filter (fun o => o.1 ≠ key)) ++ [(key, content)] }

/-- `S3_PATHS.MESSAGE_HTML` of the s3 module (src/server/db.ts): the
blob-store key under which a message's html body is stored. -/
def S3_PATHS_MESSAGE_HTML (userId messageId : String) : String :=
  "users/" ++ userId ++ "/messages/" ++ messageId ++ "/content.html"

/-- `S3_PATHS.ATTACHMENT` of the s3 module (src/server/db.ts): the blob-store
key under which an attachment's bytes are stored. -/
def S3_PATHS_ATTACHMENT (userId messageId attachmentId filename : String) : String :=
  "users/" ++ userId ++ "/messages/" ++ messageId ++ "/attachments/"
    ++ attachmentId ++ "/" ++ filename

/-- Prisma `update` on the unique primary key of the sync job table. -/
def updateJob (jid : Nat) (f : SyncJobRow → SyncJobRow) (s : Store) : Store :=
  { s with syncJobs := updateFirst (fun j => j.id = jid) f s.syncJobs }

/-- Prisma `db.user.update` on the unique user id. -/
def updateUserSync (uid : String) (f : UserRow → UserRow) (s : Store) : Store :=
  { s with users := updateFirst (fun u => u.id = uid) f s.users }

/-! ## Label sync (syncLabels) -/

/-- One iteration of the `syncLabels` loop: `db.label.upsert` under the
unique key (userId, gmailLabelId). -/
def syncLabelsStep (uid : String) (s : Store) (l : GmailLabel) : Store :=
  let keyMatch := fun (r : LabelRow) => r.userId = uid ∧ r.gmailLabelId = l.id
  let newType := if l.type = "system" then LabelType.SYSTEM else LabelType.USER
  let updRow := fun (r : LabelRow) =>
    { r with name := l.name, type := newType, color := l.colorBackground,
             messageListVisibility := l.messageListVisibility,
             labelListVisibility := l.labelListVisibility }
  if s.labels.any (fun r => keyMatch r) then
    { s with labels := updateFirst (fun r => keyMatch r) updRow s.labels }
  else
    { s with
      labels := s.labels ++
        [{ id := s.nextId, userId := uid, gmailLabelId := l.id, name := l.name,
           type := newType, color := l.colorBackground,
           messageListVisibility := l.messageListVisibility,
           labelListVisibility := l.labelListVisibility }],
      nextId := s.nextId + 1 }

/-- `syncLabels`: upsert every label returned by the mailbox API. -/
def syncLabels (uid : String) (labelsResp : List GmailLabel) (s : Store) : Store :=
  labelsResp.foldl (syncLabelsStep uid) s

/-! ## Bulk preparation step of syncThreadsBulk (pure) -/

structure ThreadCreateData where
  userId : String
  gmailThreadId : String
  subject : String
  snippet : String
  lastMessageDate : String
  unread : Bool
  starred : Bool
  important : Bool
  messageCount : Nat
deriving DecidableEq, Repr

structure MessageCreateData where
  gmailMessageId : String
  gmailThreadId : String
  fromAddr : String
  toAddr : List String
  cc : List String
  bcc : List String
  subject : String
  snippet : String
  date : String
  htmlS3Key : Option String
  textContent : Option String
  inReplyTo : Option String
  references : List String
  labelIds : List String
deriving DecidableEq, Repr

structure S3Task where
  key : String
  content : String
  contentType : String
deriving DecidableEq, Repr

structure BulkPrep where
  threadsToCreate : List ThreadCreateData
  messagesToCreate : List MessageCreateData
  attachmentsToProcess : List (String × AttachmentDescr)
  s3UploadTasks : List S3Task
deriving DecidableEq, Repr

/-- The per-message body of the message loop in syncThreadsBulk: envelope
fields from the headers, extracted content, the scheduled html blob upload,
and the collected attachment stubs keyed by the gmail message id. -/
def prepareMessage (uid : String) (m : GmailMessage) :
    MessageCreateData × Option S3Task × List (String × AttachmentDescr) :=
  let headers := m.payload.headers
  let ex := extractEmailContent m
  let htmlS3Key : Option String :=
    if optStrTruthy ex.html then some (S3_PATHS_MESSAGE_HTML uid m.id) else none
  let s3Task : Option S3Task :=
    match htmlS3Key with
    | some k => some { key := k, content := ex.html.getD "", contentType := "text/html" }
    | none => none
  ({ gmailMessageId := m.id,
     gmailThreadId := m.threadId,
     fromAddr := getHeaderValue headers "From",
     toAddr := parseEmailAddresses (getHeaderValue headers "To"),
     cc := parseEmailAddresses (getHeaderValue headers "Cc"),
     bcc := parseEmailAddresses (getHeaderValue headers "Bcc"),
     subject := jsOrStr (getHeaderValue headers "Subject") "(no subject)",
     snippet := m.snippet,
     date := jsOrStr m.internalDate "0",
     htmlS3Key := htmlS3Key,
     textContent := ex.text,
     inReplyTo := normStrOpt (some (getHeaderValue headers "In-Reply-To")),
     references := parseEmailAddresses (getHeaderValue headers "References"),
     labelIds := m.labelIds },
   s3Task,
   ex.attachments.map (fun a => (m.id, a)))

/-- The per-thread body of the preparation loop in syncThreadsBulk: a thread
with no messages contributes nothing; otherwise thread metadata is derived
from the last message (subject falling back to the first message and then to
the literal placeholder), and every message with a truthy id is prepared. -/
def prepareThread (uid : String) (td : GmailThreadData) :
    Option (ThreadCreateData × List MessageCreateData × List S3Task ×
            List (String × AttachmentDescr)) :=
  if td.messages.length = 0 then none
  else
    match td.messages.getLast?, td.messages.head? with
    | some lastMessage, some firstMessage =>
      let tcd : ThreadCreateData :=
        { userId := uid,
          gmailThreadId := td.id,
          subject := jsOrStr (getHeaderValue lastMessage.payload.headers "Subject")
            (jsOrStr (getHeaderValue firstMessage.payload.headers "Subject") "(no subject)"),
          snippet := td.snippet,
          lastMessageDate := jsOrStr lastMessage.internalDate "0",
          unread := lastMessage.labelIds.contains "UNREAD",
          starred := lastMessage.labelIds.contains "STARRED",
          important := lastMessage.labelIds.contains "IMPORTANT",
          messageCount := td.messages.length }
      let msgs := (td.messages.filter (fun m => m.id ≠ "")).map (prepareMessage uid)
      some (tcd, msgs.map (fun x => x.1), msgs.filterMap (fun x => x.2.1),
            msgs.flatMap (fun x => x.2.2))
    | _, _ => none

/-- Step 2 of syncThreadsBulk: accumulate the bulk data for every fetched
thread, in order. -/
def prepareBulk (uid : String) (validThreads : List GmailThreadData) : BulkPrep :=
  validThreads.foldl (fun acc td =>
    match prepareThread uid td with
    | none => acc
    | some (tcd, msgs, s3s, atts) =>
      { threadsToCreate := acc.threadsToCreate ++ [tcd],
        messagesToCreate := acc.messagesToCreate ++ msgs,
        attachmentsToProcess := acc.attachmentsToProcess ++ atts,
        s3UploadTasks := acc.s3UploadTasks ++ s3s })
    { threadsToCreate := [], messagesToCreate := [],
      attachmentsToProcess := [], s3UploadTasks := [] }

/-! ## Bulk persistence step of syncThreadsBulk -/

/-- `db.thread.upsert` on the unique key (userId, gmailThreadId): update the
metadata of the existing row, or create a new row with a fresh id. Returns
the written row. -/
def threadUpsert (d : ThreadCreateData) (s : Store) : Store × ThreadRow :=
  let keyMatch := fun (t : ThreadRow) => t.userId = d.userId ∧ t.gmailThreadId = d.gmailThreadId
  let updRow := fun (t : ThreadRow) =>
    { t with subject := d.subject, snippet := d.snippet,
             lastMessageDate := d.lastMessageDate, unread := d.unread,
             starred := d.starred, important := d.important,
             messageCount := d.messageCount }
  match s.threads.find? (fun t => keyMatch t) with
  | some t0 =>
    ({ s with threads := updateFirst (fun t => keyMatch t) updRow s.threads }, updRow t0)
  | none =>
    let t1 : ThreadRow :=
      { id := s.nextId, userId := d.userId, gmailThreadId := d.gmailThreadId,
        subject := d.subject, snippet := d.snippet,
        lastMessageDate := d.lastMessageDate, unread := d.unread,
        starred := d.starred, important := d.important,
        messageCount := d.messageCount }
    ({ s with threads := s.threads ++ [t1], nextId := s.nextId + 1 }, t1)

/-- The upsert loop over threadsToCreate, collecting createdThreads in
order. -/
def runThreadUpserts : List ThreadCreateData → Store → Store × List ThreadRow
  | [], s => (s, [])
  | d :: rest, s =>
    let p := threadUpsert d s
    let q := runThreadUpserts rest p.1
    (q.1, p.2 :: q.2)

/-- The threadIdMap construction: validThreads and createdThreads are paired
index by index (truncating where createdThreads runs out), keeping pairs
whose gmail thread id is truthy; a later entry overwrites an earlier one as
in a JS Map. -/
def buildThreadIdMap (validThreads : List GmailThreadData) (createdThreads : List ThreadRow) :
    List (String × Nat) :=
  (validThreads.zip createdThreads).filterMap (fun x =>
    if x.1.id ≠ "" then some (x.1.id, x.2.id) else none)

def mkMessageRow (rowId : Nat) (threadId : Nat) (md : MessageCreateData) : MessageRow :=
  { id := rowId, threadId := threadId,
    gmailMessageId := md.gmailMessageId, gmailThreadId := md.gmailThreadId,
    fromAddr := md.fromAddr, toAddr := md.toAddr, cc := md.cc, bcc := md.bcc,
    subject := md.subject, snippet := md.snippet, date := md.date,
    htmlS3Key := md.htmlS3Key, textContent := md.textContent,
    inReplyTo := md.inReplyTo, references := md.references, labelIds := md.labelIds }

/-- `db.message.createMany` with skipDuplicates on the unique gmail message
id, wrapped in the try/catch of syncThreadsBulk: when some message has no
resolved thread id the required column is missing, the statement fails
atomically and the error is swallowed, leaving the store unchanged;
otherwise rows whose gmail message id is already present are skipped and the
rest are inserted with fresh ids. -/
def insertMessages : List (MessageCreateData × Option Nat) → Store → Store
  | [], s => s
  | (_, none) :: rest, s => insertMessages rest s
  | (md, some tid) :: rest, s =>
    if s.messages.any (fun m => m.gmailMessageId = md.gmailMessageId) then
      insertMessages rest s
    else
      insertMessages rest
        { s with messages := s.messages ++ [mkMessageRow s.nextId tid md],
                 nextId := s.nextId + 1 }

def messageCreateMany (batch : List (MessageCreateData × Option Nat)) (s : Store) : Store :=
  if batch.any (fun md => md.2 = none) then s
  else insertMessages batch s

/-- `syncAttachment`: skip when a row for (messageId, gmailAttachmentId)
already exists; otherwise download the bytes (getAttach models
response.data.data), return without any write when the data is falsy, else
upload the bytes to the blob store and create exactly one attachment row. -/
def syncAttachment (uid : String) (getAttach : String → String → Option String)
    (messageId : Nat) (gmailMessageId : String) (att : AttachmentDescr)
    (s : Store) : Store :=
  if s.attachments.any (fun a => a.messageId = messageId ∧
      a.gmailAttachmentId = att.attachmentId) then s
  else
    let dataOpt := getAttach gmailMessageId att.attachmentId
    if ¬ optStrTruthy dataOpt then s
    else
      let s3Key := S3_PATHS_ATTACHMENT uid gmailMessageId att.attachmentId att.filename
      let s1 := uploadToS3 s3Key (base64ToUtf8 (dataOpt.getD "")) s
      { s1 with
        attachments := s1.attachments ++
          [{ id := s1.nextId, messageId := messageId, filename := att.filename,
             mimeType := att.mimeType, size := att.size, s3Key := s3Key,
             gmailAttachmentId := att.attachmentId }],
        nextId := s1.nextId + 1 }

/-- The attachment loop of step 4 of syncThreadsBulk, with the resolved
message id map fixed at entry: every attachment whose parent message
resolved is synced; an unresolved attachment is skipped. -/
def attachmentsFold (uid : String) (getAttach : String → String → Option String)
    (messageIdMap : List (String × Nat)) :
    List (String × AttachmentDescr) → Store → Store
  | [], s => s
  | it :: rest, s =>
    match lookupMapStr messageIdMap it.1 with
    | some mid =>
      attachmentsFold uid getAttach messageIdMap rest
        (syncAttachment uid getAttach mid it.1 it.2 s)
    | none => attachmentsFold uid getAttach messageIdMap rest s

/-- The message id map of step 4 of syncThreadsBulk: the stored rows whose
gmail message id occurs in the batch, as a JS Map from gmail message id to
row id. -/
def buildMessageIdMap (messagesToCreate : List MessageCreateData) (s : Store) :
    List (String × Nat) :=
  let ids := messagesToCreate.map (fun m => m.gmailMessageId)
  (s.messages.filter (fun m => m.gmailMessageId ∈ ids)).map (fun m => (m.gmailMessageId, m.id))

/-- Step 4 of syncThreadsBulk: resolve message row ids for the batch by gmail
message id and sync every attachment whose parent message resolved. -/
def processAttachments (uid : String) (getAttach : String → String → Option String)
    (messagesToCreate : List MessageCreateData)
    (attachmentsToProcess : List (String × AttachmentDescr)) (s : Store) : Store :=
  attachmentsFold uid getAttach (buildMessageIdMap messagesToCreate s)
    attachmentsToProcess s

/-! ## Label reconciliation -/

/-- `syncThreadLabels` (the per-thread variant): delete every existing label
association of the thread, then recreate one association per label row of
the owner whose gmail label id occurs in the given label id list. -/
def syncThreadLabels (uid : String) (threadId : Nat) (labelIds : List String)
    (s : Store) : Store :=
  let s1 := { s with labelThreads := s.labelThreads.filter (fun r => r.threadId ≠ threadId) }
  let labels := s1.labels.filter (fun l => l.userId = uid ∧ l.gmailLabelId ∈ labelIds)
  { s1 with labelThreads := s1.labelThreads ++
      labels.map (fun l => { labelId := l.id, threadId := threadId }) }

/-- `db.labelThread.createMany` with skipDuplicates on the unique
(labelId, threadId) pair. -/
def labelThreadCreateMany : List LabelThreadRow → Store → Store
  | [], s => s
  | r :: rest, s =>
    if s.labelThreads.any (fun x => x = r) then labelThreadCreateMany rest s
    else labelThreadCreateMany rest { s with labelThreads := s.labelThreads ++ [r] }

/-- `syncThreadLabelsBulk`: pair validThreads and createdThreads index by
index, collect (thread row id, label ids of the last message) for pairs
whose thread data has messages, bulk delete the existing associations of the
collected thread ids, and recreate them through the label table of the
owner. -/
def syncThreadLabelsBulk (uid : String) (validThreads : List GmailThreadData)
    (createdThreads : List ThreadRow) (s : Store) : Store :=
  let threadLabelData : List (Nat × List String) :=
    (validThreads.zip createdThreads).filterMap (fun x =>
      if x.1.messages.length > 0 then
        some (x.2.id, ((x.1.messages.getLast?).map (fun m => m.labelIds)).getD [])
      else none)
  let allThreadIds := threadLabelData.map (fun x => x.1)
  if threadLabelData.length = 0 then s
  else
    let s1 := { s with labelThreads :=
      s.labelThreads.filter (fun r => r.threadId ∉ allThreadIds) }
    let allLabelIds := (threadLabelData.flatMap (fun x => x.2)).dedup
    let labels := s1.labels.filter (fun l => l.userId = uid ∧ l.gmailLabelId ∈ allLabelIds)
    let labelMapEntries := labels.map (fun l => (l.gmailLabelId, l.id))
    let labelThreadsToCreate : List LabelThreadRow :=
      threadLabelData.flatMap (fun x =>
        x.2.filterMap (fun gl =>
          (lookupMapStr labelMapEntries gl).map (fun lid =>
            { labelId := lid, threadId := x.1 })))
    labelThreadCreateMany labelThreadsToCreate s1

/-! ## The bulk pipeline (syncThreadsBulk) -/

/-- Step 6 of syncThreadsBulk: run the scheduled html blob uploads. -/
def runUploadTasks : List S3Task → Store → Store
  | [], s => s
  | t :: rest, s => runUploadTasks rest (uploadToS3 t.key t.content s)

/-- Steps 3 to 6 of syncThreadsBulk against the record store: thread upserts,
message bulk insert with resolved thread ids, attachment processing, bulk
label reconciliation, and the scheduled blob uploads. -/
def persistBulk (uid : String) (getAttach : String → String → Option String)
    (validThreads : List GmailThreadData) (prep : BulkPrep) (s : Store) : Store :=
  let r := runThreadUpserts prep.threadsToCreate s
  let threadIdMap := buildThreadIdMap validThreads r.2
  let messagesWithThreadIds := prep.messagesToCreate.map (fun md =>
    (md, lookupMapStr threadIdMap md.gmailThreadId))
  let s2 := messageCreateMany messagesWithThreadIds r.1
  let s3 :=
    if prep.attachmentsToProcess.length > 0 then
      processAttachments uid getAttach prep.messagesToCreate prep.attachmentsToProcess s2
    else s2
  let s4 := syncThreadLabelsBulk uid validThreads r.2 s3
  runUploadTasks prep.s3UploadTasks s4

/-- `syncThreadsBulk`: fetch every thread of the batch (a failed fetch yields
null and is filtered out), prepare bulk data, and persist it; returns the
new store and processedCount, the number of successfully fetched threads. -/
def syncThreadsBulk (uid : String) (fetchThread : String → Option GmailThreadData)
    (getAttach : String → String → Option String)
    (threadItems : List ThreadStub) (s : Store) : Store × Nat :=
  let validThreads := threadItems.filterMap (fun it => fetchThread it.id)
  let prep := prepareBulk uid validThreads
  (persistBulk uid getAttach validThreads prep s, validThreads.length)

/-! ## Sync job state machine -/

/-- `completeSyncJob`: update the job row to the given terminal status with
completedAt set to the current time; progress is forced to 100 only on
COMPLETED and left untouched otherwise, the error message is written only
when given, and nextPageToken is not part of the update. A null job id makes
the call a no-op. -/
def completeSyncJob (syncJobId : Option Nat) (status : JobStatus)
    (error : Option String) (now : Nat) (s : Store) : Store :=
  match syncJobId with
  | none => s
  | some jid =>
    updateJob jid (fun j =>
      { j with status := status, completedAt := some now,
               progress := if status = JobStatus.COMPLETED then 100 else j.progress,
               error := match error with
                        | some e => some e
                        | none => j.error }) s

/-- The progress computation of `updateSyncProgress` applied to a job row:
the total is corrected to max(totalItems, processedItems), the percentage is
clamped at 100 and rounded, and a zero total yields zero progress. -/
def applySyncProgress (processedItems totalItems : Nat) (j : SyncJobRow) : SyncJobRow :=
  let actualTotal := max totalItems processedItems
  let progress : ℚ :=
    if 0 < actualTotal then
      min ((processedItems : ℚ) / (actualTotal : ℚ) * 100) 100
    else 0
  { j with processedItems := processedItems, totalItems := actualTotal,
           progress := jsRound progress }

/-- `updateSyncProgress`: persist the corrected counters and the clamped,
rounded progress on the current job row; a null job id makes the call a
no-op. -/
def updateSyncProgress (syncJobId : Option Nat) (processedItems totalItems : Nat)
    (s : Store) : Store :=
  match syncJobId with
  | none => s
  | some jid => updateJob jid (applySyncProgress processedItems totalItems) s

/-- The accumulator of the findFirst with descending startedAt: keep the job
with the later startedAt. -/
def latestJob (acc : Option SyncJobRow) (j : SyncJobRow) : Option SyncJobRow :=
  match acc with
  | none => some j
  | some a => if a.startedAt < j.startedAt then some j else some a

/-- `db.syncJob.findFirst` for the running job of the owner, ordered by
startedAt descending: the running job of the owner with the latest
startedAt. -/
def findRunningJob (uid : String) (s : Store) : Option SyncJobRow :=
  (s.syncJobs.filter (fun j => j.userId = uid ∧ j.status = JobStatus.RUNNING)).foldl
    latestJob none

/-- The find-or-create step at the top of `syncBatch`: reuse the running job
of the owner when one exists; otherwise create a new RUNNING job and perform
the one-time label sync. The counters and cursor of a fresh job are the
schema defaults, modelled from the spec (a new job has status RUNNING and
zero counters, the schema file is not under src). -/
def findOrCreateSyncJob (uid : String) (now : Nat) (labelsResp : List GmailLabel)
    (s : Store) : Store × SyncJobRow :=
  match findRunningJob uid s with
  | some j => (s, j)
  | none =>
    let j : SyncJobRow :=
      { id := s.nextId, userId := uid, status := JobStatus.RUNNING,
        type := SyncType.FULL, processedItems := 0, totalItems := 0, progress := 0,
        nextPageToken := none, startedAt := now, completedAt := none, error := none }
    let s1 := { s with syncJobs := s.syncJobs ++ [j], nextId := s.nextId + 1 }
    (syncLabels uid labelsResp s1, j)

/-- Normalized result of `getNextThreadBatch`. -/
structure ThreadBatchResp where
  items : List ThreadStub
  nextPageToken : Option String
  resultSizeEstimate : Nat
deriving DecidableEq, Repr

/-- `getNextThreadBatch`: one `threads.list` call with the stored cursor (an
empty cursor is passed as undefined), with missing fields of the response
normalized away. -/
def getNextThreadBatch (listThreads : Nat → Option String → ListThreadsResp)
    (batchSize : Nat) (pageToken : Option String) : ThreadBatchResp :=
  let resp := listThreads batchSize (normStrOpt pageToken)
  { items := resp.threads.getD [],
    nextPageToken := normStrOpt resp.nextPageToken,
    resultSizeEstimate := resp.resultSizeEstimate.getD 0 }

structure BatchResult where
  completed : Bool
  progress : ℤ
  processedItems : Nat
  totalItems : Nat
deriving DecidableEq, Repr

/-- `syncBatch`: find or create the running job, fetch the next batch of
thread stubs with the stored cursor; an empty batch completes the job and
updates the owner; otherwise the batch is processed in bulk, the job row is
updated with the new cursor, counters and progress, and when no continuation
cursor was returned the job is completed and the owner updated. -/
def syncBatch (uid : String) (now : Nat) (labelsResp : List GmailLabel)
    (listThreads : Nat → Option String → ListThreadsResp)
    (fetchThread : String → Option GmailThreadData)
    (getAttach : String → String → Option String)
    (s : Store) : Store × BatchResult :=
  let fc := findOrCreateSyncJob uid now labelsResp s
  let s0 := fc.1
  let syncJob := fc.2
  let threads := getNextThreadBatch listThreads 20 syncJob.nextPageToken
  if threads.items.length = 0 then
    let s1 := completeSyncJob (some syncJob.id) JobStatus.COMPLETED none now s0
    let s2 := updateUserSync uid
      (fun u => { u with syncStatus := "COMPLETED", lastSyncedAt := some now }) s1
    (s2, { completed := true, progress := 100,
           processedItems := syncJob.processedItems, totalItems := syncJob.totalItems })
  else
    let bulk := syncThreadsBulk uid fetchThread getAttach threads.items s0
    let s1 := bulk.1
    let processedInBatch := bulk.2
    let newProcessedItems := syncJob.processedItems + processedInBatch
    let estimatedTotal := max threads.resultSizeEstimate newProcessedItems
    let progress : ℤ :=
      if 0 < estimatedTotal then
        jsRound ((newProcessedItems : ℚ) / (estimatedTotal : ℚ) * 100)
      else 0
    let s2 := updateJob syncJob.id (fun j =>
      { j with nextPageToken := threads.nextPageToken,
               processedItems := newProcessedItems, totalItems := estimatedTotal,
               progress := progress }) s1
    let isCompleted := threads.nextPageToken = none
    let s3 :=
      if isCompleted then
        let sA := completeSyncJob (some syncJob.id) JobStatus.COMPLETED none now s2
        updateUserSync uid
          (fun u => { u with syncStatus := "COMPLETED", lastSyncedAt := some now }) sA
      else s2
    (s3, { completed := isCompleted, progress := min progress 100,
           processedItems := newProcessedItems, totalItems := estimatedTotal })

/-- The job-creation step at the top of `syncMailbox` (the continuous entry
point): a SyncJob row with status RUNNING is created unconditionally, with no
lookup for an existing RUNNING job of the owner. -/
def syncMailboxCreateJob (uid : String) (syncType : SyncType) (now : Nat)
    (s : Store) : Store × SyncJobRow :=
  let j : SyncJobRow :=
    { id := s.nextId, userId := uid, status := JobStatus.RUNNING, type := syncType,
      processedItems := 0, totalItems := 0, progress := 0, nextPageToken := none,
      startedAt := now, completedAt := none, error := none }
  ({ s with syncJobs := s.syncJobs ++ [j], nextId := s.nextId + 1 }, j)

/-! ## Invariants -/

/-- Referential integrity of the record store: every message row references
an existing thread row and every attachment row references an existing
message row. -/
def RefIntegrity (s : Store) : Prop :=
  (∀ m ∈ s.messages, ∃ t ∈ s.threads, t.id = m.threadId) ∧
  (∀ a ∈ s.attachments, ∃ m ∈ s.messages, m.id = a.messageId)

/-- At most one RUNNING job per owner. -/
def atMostOneRunning (uid : String) (s : Store) : Prop :=
  (s.syncJobs.filter (fun j => j.userId = uid ∧ j.status = JobStatus.RUNNING)).length ≤ 1

/-- A thread row with the given natural key exists. -/
def threadKeyPresent (d : ThreadCreateData) (s : Store) : Prop :=
  ∃ t ∈ s.threads, t.userId = d.userId ∧ t.gmailThreadId = d.gmailThreadId

/-- A message row with the given gmail message id exists. -/
def msgPresent (gid : String) (s : Store) : Prop :=
  ∃ m ∈ s.messages, m.gmailMessageId = gid

/-- An attachment row for the given (messageId, gmailAttachmentId) pair
exists. -/
def attPairPresent (mid : Nat) (aid : String) (s : Store) : Prop :=
  ∃ a ∈ s.attachments, a.messageId = mid ∧ a.gmailAttachmentId = aid

/-- Every FAILED job row of the second store was already FAILED in the
first: no job transitioned to FAILED in between. -/
def noNewFailed (s s' : Store) : Prop :=
  ∀ j' ∈ s'.syncJobs, j'.status = JobStatus.FAILED →
    ∃ j ∈ s.syncJobs, j.id = j'.id ∧ j.status = JobStatus.FAILED

/-! ## Concrete fixtures used by counterexamples and witnesses -/

/-- The empty record store. -/
def emptyStore : Store :=
  { threads := [], messages := [], attachments := [], labels := [],
    labelThreads := [], syncJobs := [], users := [], s3Objects := [], nextId := 0 }

/-- A fresh RUNNING job row. -/
def jobZero : SyncJobRow :=
  { id := 0, userId := "u", status := JobStatus.RUNNING, type := SyncType.FULL,
    processedItems := 0, totalItems := 0, progress := 0, nextPageToken := none,
    startedAt := 0, completedAt := none, error := none }

/-- A store holding one RUNNING job for owner u that still carries a
continuation cursor. -/
def storeTok : Store :=
  { emptyStore with syncJobs := [{ jobZero with nextPageToken := some "tok" }], nextId := 1 }

/-- A store holding one RUNNING job for owner u. -/
def storeOneRunning : Store := { emptyStore with syncJobs := [jobZero], nextId := 1 }

/-- An attachment descriptor fixture. -/
def attA1 : AttachmentDescr :=
  { filename := "f.txt", mimeType := "text/plain", attachmentId := "a1", size := 3 }

/-- A message carrying only the INBOX label, in thread t1. -/
def msgC6 : GmailMessage :=
  { id := "m1", threadId := "t1", labelIds := ["INBOX"], snippet := "s",
    payload := { headers := [], parts := none, body := none, mimeType := none },
    internalDate := "100" }

/-- A fetched thread with no messages. -/
def tdC6empty : GmailThreadData := { id := "t0", snippet := "", messages := [] }

/-- A fetched thread whose last message carries exactly the INBOX label. -/
def tdC6 : GmailThreadData := { id := "t1", snippet := "sn", messages := [msgC6] }

/-- A mailbox client returning the two fixture threads. -/
def fetchC6 : String → Option GmailThreadData := fun i =>
  if i = "t0" then some tdC6empty else if i = "t1" then some tdC6 else none

/-- A store in which thread t1 already exists with a stale association to the
label OLD, while the owner also has the INBOX label. -/
def storeC6 : Store :=
  { emptyStore with
    threads := [{ id := 1, userId := "u", gmailThreadId := "t1", subject := "old",
                  snippet := "", lastMessageDate := "0", unread := false,
                  starred := false, important := false, messageCount := 1 }],
    labels := [{ id := 2, userId := "u", gmailLabelId := "INBOX", name := "Inbox",
                 type := LabelType.SYSTEM, color := none,
                 messageListVisibility := none, labelListVisibility := none },
               { id := 3, userId := "u", gmailLabelId := "OLD", name := "Old",
                 type := LabelType.USER, color := none,
                 messageListVisibility := none, labelListVisibility := none }],
    labelThreads := [{ labelId := 3, threadId := 1 }],
    nextId := 10 }

/-- A user row for owner u. -/
def userU : UserRow := { id := "u", syncStatus := "IDLE", lastSyncedAt := none }

/-- A store holding only the owner row. -/
def storeUserOnly : Store := { emptyStore with users := [userU], nextId := 1 }

/-- A mailbox listing that reports an empty page while still returning a
continuation cursor. -/
def listEmptyWithToken : Nat → Option String → ListThreadsResp := fun _ _ =>
  { threads := some [], nextPageToken := some "t2", resultSizeEstimate := some 5 }

/-- An attachment payload body fixture. -/
def bodyAtt9 : PartBody := { attachmentId := some "att9", size := 5, data := some "x" }

/-- A nested html sub-part fixture. -/
def subPartHtml : PayloadPart :=
  PayloadPart.mk "text/html" "" (some { attachmentId := none, size := 2, data := some "zz" }) []

/-! ## General lemmas about the store primitives -/

theorem updateFirst_length (p : α → Bool) (f : α → α) (l : List α) :
    (updateFirst p f l).length = l.length := by
  induction l with
  | nil => rfl
  | cons x xs ih =>
    by_cases hx : p x <;> simp [updateFirst, hx, ih]

theorem mem_updateFirst {p : α → Bool} {f : α → α} {l : List α} {y : α}
    (h : y ∈ updateFirst p f l) : y ∈ l ∨ ∃ x ∈ l, p x ∧ y = f x := by
  induction l with
  | nil => simp [updateFirst] at h
  | cons x xs ih =>
    by_cases hx : p x
    · simp only [updateFirst, hx, if_pos] at h
      rcases List.mem_cons.mp h with h1 | h1
      · exact Or.inr ⟨x, List.mem_cons_self x xs, hx, h1⟩
      · exact Or.inl (List.mem_cons_of_mem x h1)
    · simp only [updateFirst, hx, if_neg, Bool.false_eq_true, not_false_iff] at h
      rcases List.mem_cons.mp h with h1 | h1
      · exact Or.inl (h1 ▸ List.mem_cons_self x xs)
      · rcases ih h1 with h2 | ⟨z, hz, hpz, hy⟩
        · exact Or.inl (List.mem_cons_of_mem x h2)
        · exact Or.inr ⟨z, List.mem_cons_of_mem x hz, hpz, hy⟩

theorem updateFirst_exists (q : α → Prop) {p : α → Bool} {f : α → α} {l : List α}
    (hf : ∀ x, q x → q (f x)) (h : ∃ x ∈ l, q x) :
    ∃ x ∈ updateFirst p f l, q x := by
  induction l with
  | nil => simp at h
  | cons x xs ih =>
    rcases h with ⟨z, hz, hqz⟩
    by_cases hx : p x
    · simp only [updateFirst, hx, if_pos]
      rcases List.mem_cons.mp hz with rfl | hzz
      · exact ⟨f z, List.mem_cons_self _ _, hf z hqz⟩
      · exact ⟨z, List.mem_cons_of_mem _ hzz, hqz⟩
    · simp only [updateFirst, hx, Bool.false_eq_true, if_neg, not_false_iff]
      rcases List.mem_cons.mp hz with rfl | hzz
      · exact ⟨z, List.mem_cons_self _ _, hqz⟩
      · rcases ih ⟨z, hzz, hqz⟩ with ⟨w, hw, hqw⟩
        exact ⟨w, List.mem_cons_of_mem _ hw, hqw⟩

theorem updateFirst_of_find? {p : α → Bool} {f : α → α} {l : List α} {x₀ : α}
    (h : l.find? p = some x₀) : f x₀ ∈ updateFirst p f l := by
  induction l with
  | nil => simp [List.find?] at h
  | cons x xs ih =>
    by_cases hx : p x
    · rw [List.find?_cons_of_pos _ hx] at h
      cases h
      simp [updateFirst, hx]
    · rw [List.find?_cons_of_neg _ hx] at h
      simp only [updateFirst, hx, Bool.false_eq_true, if_neg, not_false_iff]
      exact List.mem_cons_of_mem x (ih h)

/-! ## Frame and step lemmas for the bulk pipeline -/

theorem threadUpsert_frame (d : ThreadCreateData) (s : Store) :
    (threadUpsert d s).1.messages = s.messages ∧
    (threadUpsert d s).1.attachments = s.attachments ∧
    (threadUpsert d s).1.labels = s.labels ∧
    (threadUpsert d s).1.labelThreads = s.labelThreads ∧
    (threadUpsert d s).1.syncJobs = s.syncJobs ∧
    (threadUpsert d s).1.users = s.users ∧
    (threadUpsert d s).1.s3Objects = s.s3Objects := by
  unfold threadUpsert
  dsimp only
  split <;> simp

theorem threadUpsert_threads_length (d : ThreadCreateData) (s : Store)
    (h : threadKeyPresent d s) :
    (threadUpsert d s).1.threads.length = s.threads.length := by
  unfold threadUpsert
  dsimp only
  split
  · simp [updateFirst_length]
  · next hfind =>
    rcases h with ⟨t, ht, h1, h2⟩
    have := List.find?_eq_none.mp hfind t ht
    simp [h1, h2] at this

theorem threadUpsert_keyPresent_mono (d e : ThreadCreateData) (s : Store)
    (h : threadKeyPresent e s) : threadKeyPresent e (threadUpsert d s).1 := by
  unfold threadKeyPresent at h ⊢
  unfold threadUpsert
  dsimp only
  split
  · exact updateFirst_exists
      (fun (t : ThreadRow) => t.userId = e.userId ∧ t.gmailThreadId = e.gmailThreadId)
      (fun x hx => hx) h
  · rcases h with ⟨t, ht, h1, h2⟩
    exact ⟨t, List.mem_append_left _ ht, h1, h2⟩

theorem threadUpsert_keyPresent_self (d : ThreadCreateData) (s : Store) :
    threadKeyPresent d (threadUpsert d s).1 := by
  unfold threadKeyPresent
  unfold threadUpsert
  dsimp only
  split
  · next t0 hfind =>
    have hp := List.find?_some hfind
    simp only [decide_eq_true_eq] at hp
    exact ⟨_, updateFirst_of_find? hfind, hp.1, hp.2⟩
  · exact ⟨_, List.mem_append_right _ (List.mem_singleton_self _), rfl, rfl⟩

theorem threadUpsert_id_present_mono (d : ThreadCreateData) (s : Store) (i : Nat)
    (h : ∃ t ∈ s.threads, t.id = i) :
    ∃ t ∈ (threadUpsert d s).1.threads, t.id = i := by
  unfold threadUpsert
  dsimp only
  split
  · exact updateFirst_exists (fun (t : ThreadRow) => t.id = i) (fun x hx => hx) h
  · rcases h with ⟨t, ht, h1⟩
    exact ⟨t, List.mem_append_left _ ht, h1⟩

theorem threadUpsert_row_mem (d : ThreadCreateData) (s : Store) :
    (threadUpsert d s).2 ∈ (threadUpsert d s).1.threads := by
  unfold threadUpsert
  dsimp only
  split
  · next t0 hfind => exact updateFirst_of_find? hfind
  · exact List.mem_append_right _ (List.mem_singleton_self _)

theorem runThreadUpserts_frame (tds : List ThreadCreateData) (s : Store) :
    (runThreadUpserts tds s).1.messages = s.messages ∧
    (runThreadUpserts tds s).1.attachments = s.attachments ∧
    (runThreadUpserts tds s).1.labels = s.labels ∧
    (runThreadUpserts tds s).1.labelThreads = s.labelThreads ∧
    (runThreadUpserts tds s).1.syncJobs = s.syncJobs ∧
    (runThreadUpserts tds s).1.users = s.users ∧
    (runThreadUpserts tds s).1.s3Objects = s.s3Objects := by
  induction tds generalizing s with
  | nil => simp [runThreadUpserts]
  | cons d rest ih =>
    have h1 := threadUpsert_frame d s
    have h2 := ih (threadUpsert d s).1
    simp only [runThreadUpserts]
    exact ⟨h2.1.trans h1.1, h2.2.1.trans h1.2.1, h2.2.2.1.trans h1.2.2.1,
      h2.2.2.2.1.trans h1.2.2.2.1, h2.2.2.2.2.1.trans h1.2.2.2.2.1,
      h2.2.2.2.2.2.1.trans h1.2.2.2.2.2.1, h2.2.2.2.2.2.2.trans h1.2.2.2.2.2.2⟩

theorem runThreadUpserts_keyPresent_mono (tds : List ThreadCreateData)
    (e : ThreadCreateData) (s : Store) (h : threadKeyPresent e s) :
    threadKeyPresent e (runThreadUpserts tds s).1 := by
  induction tds generalizing s with
  | nil => exact h
  | cons d rest ih =>
    simp only [runThreadUpserts]
    exact ih _ (threadUpsert_keyPresent_mono d e s h)

theorem runThreadUpserts_keys_after (tds : List ThreadCreateData) (s : Store) :
    ∀ d ∈ tds, threadKeyPresent d (runThreadUpserts tds s).1 := by
  induction tds generalizing s with
  | nil => intro d hd; simp at hd
  | cons d rest ih =>
    intro e he
    rcases List.mem_cons.mp he with rfl | he
    · simp only [runThreadUpserts]
      exact runThreadUpserts_keyPresent_mono rest e (threadUpsert e s).1
        (threadUpsert_keyPresent_self e s)
    · simp only [runThreadUpserts]
      exact ih (threadUpsert d s).1 e he

theorem runThreadUpserts_threads_length (tds : List ThreadCreateData) (s : Store)
    (h : ∀ d ∈ tds, threadKeyPresent d s) :
    (runThreadUpserts tds s).1.threads.length = s.threads.length := by
  induction tds generalizing s with
  | nil => rfl
  | cons d rest ih =>
    simp only [runThreadUpserts]
    have hd := h d (List.mem_cons_self d rest)
    have hrest : ∀ e ∈ rest, threadKeyPresent e (threadUpsert d s).1 := fun e he =>
      threadUpsert_keyPresent_mono d e s (h e (List.mem_cons_of_mem d he))
    exact (ih _ hrest).trans (threadUpsert_threads_length d s hd)

theorem runThreadUpserts_rows_length (tds : List ThreadCreateData) (s : Store) :
    (runThreadUpserts tds s).2.length = tds.length := by
  induction tds generalizing s with
  | nil => rfl
  | cons d rest ih =>
    simp only [runThreadUpserts, List.length_cons]
    rw [ih]

theorem runThreadUpserts_id_present_mono (tds : List ThreadCreateData) (s : Store)
    (i : Nat) (h : ∃ t ∈ s.threads, t.id = i) :
    ∃ t ∈ (runThreadUpserts tds s).1.threads, t.id = i := by
  induction tds generalizing s with
  | nil => exact h
  | cons d rest ih =>
    simp only [runThreadUpserts]
    exact ih _ (threadUpsert_id_present_mono d s i h)

theorem runThreadUpserts_rows_ids (tds : List ThreadCreateData) (s : Store) :
    ∀ r ∈ (runThreadUpserts tds s).2,
      ∃ t ∈ (runThreadUpserts tds s).1.threads, t.id = r.id := by
  induction tds generalizing s with
  | nil => intro r hr; simp [runThreadUpserts] at hr
  | cons d rest ih =>
    intro r hr
    simp only [runThreadUpserts, List.mem_cons] at hr
    rcases hr with rfl | hr
    · simp only [runThreadUpserts]
      exact runThreadUpserts_id_present_mono rest (threadUpsert d s).1 _
        ⟨_, threadUpsert_row_mem d s, rfl⟩
    · simp only [runThreadUpserts]
      exact ih (threadUpsert d s).1 r hr

theorem msgPresent_any (gid : String) (s : Store) :
    msgPresent gid s ↔ s.messages.any (fun m => m.gmailMessageId = gid) := by
  simp [msgPresent, List.any_eq_true]

theorem insertMessages_frame (batch : List (MessageCreateData × Option Nat)) (s : Store) :
    (insertMessages batch s).threads = s.threads ∧
    (insertMessages batch s).attachments = s.attachments ∧
    (insertMessages batch s).labels = s.labels ∧
    (insertMessages batch s).labelThreads = s.labelThreads ∧
    (insertMessages batch s).syncJobs = s.syncJobs ∧
    (insertMessages batch s).users = s.users ∧
    (insertMessages batch s).s3Objects = s.s3Objects := by
  induction batch generalizing s with
  | nil => simp [insertMessages]
  | cons md rest ih =>
    rcases md with ⟨md, _ | tid⟩
    · simpa only [insertMessages] using ih s
    · by_cases hdup : s.messages.any (fun m => m.gmailMessageId = md.gmailMessageId)
      · simpa only [insertMessages, hdup, if_pos] using ih s
      · simp only [insertMessages, hdup, Bool.false_eq_true, if_neg, not_false_iff]
        exact ih _

theorem insertMessages_msgPresent_mono (batch : List (MessageCreateData × Option Nat))
    (s : Store) (gid : String) (h : msgPresent gid s) :
    msgPresent gid (insertMessages batch s) := by
  induction batch generalizing s with
  | nil => exact h
  | cons md rest ih =>
    rcases md with ⟨md, _ | tid⟩
    · exact ih s h
    · by_cases hdup : s.messages.any (fun m => m.gmailMessageId = md.gmailMessageId)
      · simp only [insertMessages, hdup, if_pos]
        exact ih s h
      · simp only [insertMessages, hdup, Bool.false_eq_true, if_neg, not_false_iff]
        apply ih
        rcases h with ⟨m, hm, hgid⟩
        exact ⟨m, List.mem_append_left _ hm, hgid⟩

theorem insertMessages_present_all (batch : List (MessageCreateData × Option Nat))
    (s : Store) (hnn : ∀ md ∈ batch, md.2 ≠ none) :
    ∀ md ∈ batch, msgPresent md.1.gmailMessageId (insertMessages batch s) := by
  induction batch generalizing s with
  | nil => intro md hmd; simp at hmd
  | cons md0 rest ih =>
    rcases md0 with ⟨md0, tid?⟩
    cases tid? with
    | none => exact absurd rfl (hnn (md0, none) (List.mem_cons_self _ _))
    | some tid =>
      have hnn' : ∀ md ∈ rest, md.2 ≠ none :=
        fun x hx => hnn x (List.mem_cons_of_mem _ hx)
      intro md hmd
      rcases List.mem_cons.mp hmd with heq | hmd'
      · subst heq
        by_cases hdup : s.messages.any (fun m => m.gmailMessageId = md0.gmailMessageId)
        · simp only [insertMessages, hdup, if_pos]
          exact insertMessages_msgPresent_mono rest s _ ((msgPresent_any _ _).mpr hdup)
        · simp only [insertMessages, hdup, Bool.false_eq_true, if_neg, not_false_iff]
          apply insertMessages_msgPresent_mono
          exact ⟨_, List.mem_append_right _ (List.mem_singleton_self _), rfl⟩
      · by_cases hdup : s.messages.any (fun m => m.gmailMessageId = md0.gmailMessageId)
        · simp only [insertMessages, hdup, if_pos]
          exact ih s hnn' md hmd'
        · simp only [insertMessages, hdup, Bool.false_eq_true, if_neg, not_false_iff]
          exact ih _ hnn' md hmd'

theorem insertMessages_noop (batch : List (MessageCreateData × Option Nat)) (s : Store)
    (h : ∀ md ∈ batch, msgPresent md.1.gmailMessageId s) :
    insertMessages batch s = s := by
  induction batch generalizing s with
  | nil => rfl
  | cons md rest ih =>
    rcases md with ⟨md, _ | tid⟩
    · exact ih s (fun x hx => h x (List.mem_cons_of_mem _ hx))
    · have hdup : s.messages.any (fun m => m.gmailMessageId = md.gmailMessageId) :=
        (msgPresent_any _ _).mp (h (md, some tid) (List.mem_cons_self _ _))
      simp only [insertMessages, hdup, if_pos]
      exact ih s (fun x hx => h x (List.mem_cons_of_mem _ hx))

theorem insertMessages_integrity (ths : List ThreadRow)
    (batch : List (MessageCreateData × Option Nat)) (s : Store)
    (hth : s.threads = ths)
    (hbatch : ∀ md ∈ batch, ∀ tid, md.2 = some tid → ∃ t ∈ ths, t.id = tid)
    (hmsgs : ∀ m ∈ s.messages, ∃ t ∈ ths, t.id = m.threadId) :
    ∀ m ∈ (insertMessages batch s).messages, ∃ t ∈ ths, t.id = m.threadId := by
  induction batch generalizing s with
  | nil => exact hmsgs
  | cons md rest ih =>
    rcases md with ⟨md, _ | tid⟩
    · exact ih s hth (fun x hx => hbatch x (List.mem_cons_of_mem _ hx)) hmsgs
    · by_cases hdup : s.messages.any (fun m => m.gmailMessageId = md.gmailMessageId)
      · simp only [insertMessages, hdup, if_pos]
        exact ih s hth (fun x hx => hbatch x (List.mem_cons_of_mem _ hx)) hmsgs
      · simp only [insertMessages, hdup, Bool.false_eq_true, if_neg, not_false_iff]
        refine ih
          ({ s with
             messages := s.messages ++ [mkMessageRow s.nextId tid md],
             nextId := s.nextId + 1 })
          hth (fun x hx => hbatch x (List.mem_cons_of_mem _ hx)) ?_
        intro m hm
        rcases List.mem_append.mp hm with hm | hm
        · exact hmsgs m hm
        · rcases List.mem_singleton.mp hm with rfl
          exact hbatch (md, some tid) (List.mem_cons_self _ _) tid rfl

theorem messageCreateMany_frame (batch : List (MessageCreateData × Option Nat)) (s : Store) :
    (messageCreateMany batch s).threads = s.threads ∧
    (messageCreateMany batch s).attachments = s.attachments ∧
    (messageCreateMany batch s).labels = s.labels ∧
    (messageCreateMany batch s).labelThreads = s.labelThreads ∧
    (messageCreateMany batch s).syncJobs = s.syncJobs ∧
    (messageCreateMany batch s).users = s.users ∧
    (messageCreateMany batch s).s3Objects = s.s3Objects := by
  unfold messageCreateMany
  split
  · exact ⟨rfl, rfl, rfl, rfl, rfl, rfl, rfl⟩
  · exact insertMessages_frame batch s

theorem messageCreateMany_noop (batch : List (MessageCreateData × Option Nat)) (s : Store)
    (h : ∀ md ∈ batch, msgPresent md.1.gmailMessageId s) :
    messageCreateMany batch s = s := by
  unfold messageCreateMany
  split
  · rfl
  · exact insertMessages_noop batch s h

theorem messageCreateMany_present_all (batch : List (MessageCreateData × Option Nat))
    (s : Store) (h : ¬ batch.any (fun md => md.2 = none)) :
    ∀ md ∈ batch, msgPresent md.1.gmailMessageId (messageCreateMany batch s) := by
  unfold messageCreateMany
  split
  · next hc => exact absurd hc h
  · refine insertMessages_present_all batch s ?_
    intro md hmd hcon
    exact h (List.any_eq_true.mpr ⟨md, hmd, by simp [hcon]⟩)

theorem attPairPresent_any (mid : Nat) (aid : String) (s : Store) :
    attPairPresent mid aid s ↔
      s.attachments.any (fun a => a.messageId = mid ∧ a.gmailAttachmentId = aid) := by
  simp [attPairPresent, List.any_eq_true]

theorem syncAttachment_frame (uid : String) (g : String → String → Option String)
    (mid : Nat) (gmid : String) (att : AttachmentDescr) (s : Store) :
    (syncAttachment uid g mid gmid att s).threads = s.threads ∧
    (syncAttachment uid g mid gmid att s).messages = s.messages ∧
    (syncAttachment uid g mid gmid att s).labels = s.labels ∧
    (syncAttachment uid g mid gmid att s).labelThreads = s.labelThreads ∧
    (syncAttachment uid g mid gmid att s).syncJobs = s.syncJobs ∧
    (syncAttachment uid g mid gmid att s).users = s.users := by
  unfold syncAttachment uploadToS3
  dsimp only
  split
  · exact ⟨rfl, rfl, rfl, rfl, rfl, rfl⟩
  · split
    · exact ⟨rfl, rfl, rfl, rfl, rfl, rfl⟩
    · exact ⟨rfl, rfl, rfl, rfl, rfl, rfl⟩

theorem syncAttachment_attPair_mono (uid : String) (g : String → String → Option String)
    (mid : Nat) (gmid : String) (att : AttachmentDescr) (s : Store)
    (m : Nat) (a : String) (h : attPairPresent m a s) :
    attPairPresent m a (syncAttachment uid g mid gmid att s) := by
  unfold syncAttachment uploadToS3
  dsimp only
  split
  · exact h
  · split
    · exact h
    · rcases h with ⟨x, hx, h1, h2⟩
      exact ⟨x, List.mem_append_left _ hx, h1, h2⟩

theorem syncAttachment_noop_of_present (uid : String)
    (g : String → String → Option String) (mid : Nat) (gmid : String)
    (att : AttachmentDescr) (s : Store)
    (h : attPairPresent mid att.attachmentId s) :
    syncAttachment uid g mid gmid att s = s := by
  unfold syncAttachment
  dsimp only
  rw [if_pos ((attPairPresent_any _ _ _).mp h)]

theorem syncAttachment_noop_of_not_truthy (uid : String)
    (g : String → String → Option String) (mid : Nat) (gmid : String)
    (att : AttachmentDescr) (s : Store)
    (h : ¬ optStrTruthy (g gmid att.attachmentId)) :
    syncAttachment uid g mid gmid att s = s := by
  by_cases hex : (s.attachments.any fun a => a.messageId = mid ∧
      a.gmailAttachmentId = att.attachmentId) = true
  · unfold syncAttachment
    dsimp only
    rw [if_pos hex]
  · unfold syncAttachment
    dsimp only
    rw [if_neg hex, if_pos h]

theorem syncAttachment_post (uid : String) (g : String → String → Option String)
    (mid : Nat) (gmid : String) (att : AttachmentDescr) (s : Store)
    (h : optStrTruthy (g gmid att.attachmentId)) :
    attPairPresent mid att.attachmentId (syncAttachment uid g mid gmid att s) := by
  by_cases hex : (s.attachments.any fun a => a.messageId = mid ∧
      a.gmailAttachmentId = att.attachmentId) = true
  · rw [syncAttachment_noop_of_present uid g mid gmid att s
      ((attPairPresent_any _ _ _).mpr hex)]
    exact (attPairPresent_any _ _ _).mpr hex
  · unfold syncAttachment uploadToS3
    dsimp only
    rw [if_neg hex, if_neg (fun hc => hc h)]
    exact ⟨_, List.mem_append_right _ (List.mem_singleton_self _), rfl, rfl⟩

theorem syncAttachment_integrity (uid : String) (g : String → String → Option String)
    (mid : Nat) (gmid : String) (att : AttachmentDescr) (s : Store)
    (ms : List MessageRow) (hmid : ∃ m ∈ ms, m.id = mid)
    (hatts : ∀ a ∈ s.attachments, ∃ m ∈ ms, m.id = a.messageId) :
    ∀ a ∈ (syncAttachment uid g mid gmid att s).attachments, ∃ m ∈ ms, m.id = a.messageId := by
  unfold syncAttachment uploadToS3
  dsimp only
  split
  · exact hatts
  · split
    · exact hatts
    · intro a ha
      rcases List.mem_append.mp ha with ha | ha
      · exact hatts a ha
      · rcases List.mem_singleton.mp ha with rfl
        exact hmid

theorem attachmentsFold_frame (uid : String) (g : String → String → Option String)
    (map : List (String × Nat)) (atts : List (String × AttachmentDescr)) (s : Store) :
    (attachmentsFold uid g map atts s).threads = s.threads ∧
    (attachmentsFold uid g map atts s).messages = s.messages ∧
    (attachmentsFold uid g map atts s).labels = s.labels ∧
    (attachmentsFold uid g map atts s).labelThreads = s.labelThreads ∧
    (attachmentsFold uid g map atts s).syncJobs = s.syncJobs ∧
    (attachmentsFold uid g map atts s).users = s.users := by
  induction atts generalizing s with
  | nil => exact ⟨rfl, rfl, rfl, rfl, rfl, rfl⟩
  | cons it rest ih =>
    cases hlk : lookupMapStr map it.1 with
    | none =>
      simp only [attachmentsFold, hlk]
      exact ih s
    | some mid =>
      simp only [attachmentsFold, hlk]
      have h1 := syncAttachment_frame uid g mid it.1 it.2 s
      have h2 := ih (syncAttachment uid g mid it.1 it.2 s)
      exact ⟨h2.1.trans h1.1, h2.2.1.trans h1.2.1, h2.2.2.1.trans h1.2.2.1,
        h2.2.2.2.1.trans h1.2.2.2.1, h2.2.2.2.2.1.trans h1.2.2.2.2.1,
        h2.2.2.2.2.2.trans h1.2.2.2.2.2⟩

theorem attachmentsFold_attPair_mono (uid : String)
    (g : String → String → Option String) (map : List (String × Nat))
    (atts : List (String × AttachmentDescr)) (s : Store) (m : Nat) (a : String)
    (h : attPairPresent m a s) :
    attPairPresent m a (attachmentsFold uid g map atts s) := by
  induction atts generalizing s with
  | nil => exact h
  | cons it rest ih =>
    cases hlk : lookupMapStr map it.1 with
    | none =>
      simp only [attachmentsFold, hlk]
      exact ih s h
    | some mid =>
      simp only [attachmentsFold, hlk]
      exact ih _ (syncAttachment_attPair_mono uid g mid it.1 it.2 s m a h)

theorem attachmentsFold_post (uid : String) (g : String → String → Option String)
    (map : List (String × Nat)) (atts : List (String × AttachmentDescr)) (s : Store) :
    ∀ it ∈ atts, ∀ mid, lookupMapStr map it.1 = some mid →
      optStrTruthy (g it.1 it.2.attachmentId) →
      attPairPresent mid it.2.attachmentId (attachmentsFold uid g map atts s) := by
  induction atts generalizing s with
  | nil => intro it hit; simp at hit
  | cons it0 rest ih =>
    intro it hit mid hlk htr
    rcases List.mem_cons.mp hit with heq | hit'
    · subst heq
      simp only [attachmentsFold, hlk]
      exact attachmentsFold_attPair_mono uid g map rest _ mid it.2.attachmentId
        (syncAttachment_post uid g mid it.1 it.2 s htr)
    · cases hlk0 : lookupMapStr map it0.1 with
      | none =>
        simp only [attachmentsFold, hlk0]
        exact ih s it hit' mid hlk htr
      | some mid0 =>
        simp only [attachmentsFold, hlk0]
        exact ih _ it hit' mid hlk htr

theorem attachmentsFold_noop (uid : String) (g : String → String → Option String)
    (map : List (String × Nat)) (atts : List (String × AttachmentDescr)) (s : Store)
    (h : ∀ it ∈ atts, ∀ mid, lookupMapStr map it.1 = some mid →
      attPairPresent mid it.2.attachmentId s ∨ ¬ optStrTruthy (g it.1 it.2.attachmentId)) :
    attachmentsFold uid g map atts s = s := by
  induction atts generalizing s with
  | nil => rfl
  | cons it0 rest ih =>
    have h' : ∀ it ∈ rest, ∀ mid, lookupMapStr map it.1 = some mid →
        attPairPresent mid it.2.attachmentId s ∨
          ¬ optStrTruthy (g it.1 it.2.attachmentId) :=
      fun it hit => h it (List.mem_cons_of_mem _ hit)
    cases hlk0 : lookupMapStr map it0.1 with
    | none =>
      simp only [attachmentsFold, hlk0]
      exact ih s h'
    | some mid0 =>
      simp only [attachmentsFold, hlk0]
      have hstep : syncAttachment uid g mid0 it0.1 it0.2 s = s := by
        rcases h it0 (List.mem_cons_self _ _) mid0 hlk0 with hp | hnt
        · exact syncAttachment_noop_of_present uid g mid0 it0.1 it0.2 s hp
        · exact syncAttachment_noop_of_not_truthy uid g mid0 it0.1 it0.2 s hnt
      rw [hstep]
      exact ih s h'

theorem attachmentsFold_integrity (uid : String) (g : String → String → Option String)
    (map : List (String × Nat)) (atts : List (String × AttachmentDescr)) (s : Store)
    (ms : List MessageRow)
    (hmap : ∀ k mid, lookupMapStr map k = some mid → ∃ m ∈ ms, m.id = mid)
    (hatts : ∀ a ∈ s.attachments, ∃ m ∈ ms, m.id = a.messageId) :
    ∀ a ∈ (attachmentsFold uid g map atts s).attachments, ∃ m ∈ ms, m.id = a.messageId := by
  induction atts generalizing s with
  | nil => exact hatts
  | cons it0 rest ih =>
    cases hlk0 : lookupMapStr map it0.1 with
    | none =>
      simp only [attachmentsFold, hlk0]
      exact ih s hatts
    | some mid0 =>
      simp only [attachmentsFold, hlk0]
      exact ih _ (syncAttachment_integrity uid g mid0 it0.1 it0.2 s ms
        (hmap it0.1 mid0 hlk0) hatts)

theorem labelThreadCreateMany_frame (batch : List LabelThreadRow) (s : Store) :
    (labelThreadCreateMany batch s).threads = s.threads ∧
    (labelThreadCreateMany batch s).messages = s.messages ∧
    (labelThreadCreateMany batch s).attachments = s.attachments ∧
    (labelThreadCreateMany batch s).labels = s.labels ∧
    (labelThreadCreateMany batch s).syncJobs = s.syncJobs ∧
    (labelThreadCreateMany batch s).users = s.users ∧
    (labelThreadCreateMany batch s).s3Objects = s.s3Objects ∧
    (labelThreadCreateMany batch s).nextId = s.nextId := by
  induction batch generalizing s with
  | nil => exact ⟨rfl, rfl, rfl, rfl, rfl, rfl, rfl, rfl⟩
  | cons r rest ih =>
    by_cases hdup : s.labelThreads.any (fun x => x = r)
    · simp only [labelThreadCreateMany, hdup, if_pos]
      exact ih s
    · simp only [labelThreadCreateMany, hdup, Bool.false_eq_true, if_neg, not_false_iff]
      exact ih _

theorem syncThreadLabelsBulk_frame (uid : String) (vts : List GmailThreadData)
    (cts : List ThreadRow) (s : Store) :
    (syncThreadLabelsBulk uid vts cts s).threads = s.threads ∧
    (syncThreadLabelsBulk uid vts cts s).messages = s.messages ∧
    (syncThreadLabelsBulk uid vts cts s).attachments = s.attachments ∧
    (syncThreadLabelsBulk uid vts cts s).labels = s.labels ∧
    (syncThreadLabelsBulk uid vts cts s).syncJobs = s.syncJobs ∧
    (syncThreadLabelsBulk uid vts cts s).users = s.users ∧
    (syncThreadLabelsBulk uid vts cts s).s3Objects = s.s3Objects ∧
    (syncThreadLabelsBulk uid vts cts s).nextId = s.nextId := by
  unfold syncThreadLabelsBulk
  dsimp only
  split
  · exact ⟨rfl, rfl, rfl, rfl, rfl, rfl, rfl, rfl⟩
  · exact labelThreadCreateMany_frame _ _

theorem uploadToS3_frame (key content : String) (s : Store) :
    (uploadToS3 key content s).threads = s.threads ∧
    (uploadToS3 key content s).messages = s.messages ∧
    (uploadToS3 key content s).attachments = s.attachments ∧
    (uploadToS3 key content s).labels = s.labels ∧
    (uploadToS3 key content s).labelThreads = s.labelThreads ∧
    (uploadToS3 key content s).syncJobs = s.syncJobs ∧
    (uploadToS3 key content s).users = s.users ∧
    (uploadToS3 key content s).nextId = s.nextId := by
  exact ⟨rfl, rfl, rfl, rfl, rfl, rfl, rfl, rfl⟩

theorem runUploadTasks_frame (ts : List S3Task) (s : Store) :
    (runUploadTasks ts s).threads = s.threads ∧
    (runUploadTasks ts s).messages = s.messages ∧
    (runUploadTasks ts s).attachments = s.attachments ∧
    (runUploadTasks ts s).labels = s.labels ∧
    (runUploadTasks ts s).labelThreads = s.labelThreads ∧
    (runUploadTasks ts s).syncJobs = s.syncJobs ∧
    (runUploadTasks ts s).users = s.users ∧
    (runUploadTasks ts s).nextId = s.nextId := by
  induction ts generalizing s with
  | nil => exact ⟨rfl, rfl, rfl, rfl, rfl, rfl, rfl, rfl⟩
  | cons t rest ih =>
    simp only [runUploadTasks]
    exact ih _

theorem lookupMapStr_eq_none_iff (l : List (String × Nat)) (k : String) :
    lookupMapStr l k = none ↔ ∀ e ∈ l, e.1 ≠ k := by
  simp only [lookupMapStr, Option.map_eq_none', List.find?_eq_none,
    List.mem_reverse, decide_eq_true_eq]

theorem lookupMapStr_some_mem (l : List (String × Nat)) (k : String) (v : Nat)
    (h : lookupMapStr l k = some v) : (k, v) ∈ l := by
  unfold lookupMapStr at h
  rcases Option.map_eq_some'.mp h with ⟨e, hfind, hv⟩
  have hk := List.find?_some hfind
  simp only [decide_eq_true_eq] at hk
  have hmem := List.mem_reverse.mp (List.mem_of_find?_eq_some hfind)
  have : e = (k, v) := by
    rcases e with ⟨e1, e2⟩
    simp only at hk hv
    rw [hk, hv]
  rw [this] at hmem
  exact hmem

theorem lookupMapStr_keys_none_congr (l1 l2 : List (String × Nat))
    (h : l1.map Prod.fst = l2.map Prod.fst) (k : String) :
    (lookupMapStr l1 k = none) ↔ (lookupMapStr l2 k = none) := by
  rw [lookupMapStr_eq_none_iff, lookupMapStr_eq_none_iff]
  have hgen : ∀ (l : List (String × Nat)),
      (∀ e ∈ l, e.1 ≠ k) ↔ k ∉ l.map Prod.fst := by
    intro l
    constructor
    · intro hl hk
      rcases List.mem_map.mp hk with ⟨e, he, hek⟩
      exact hl e he hek
    · intro hk e he hek
      exact hk (List.mem_map.mpr ⟨e, he, hek⟩)
  rw [hgen l1, hgen l2, h]

theorem buildThreadIdMap_keys (v : List GmailThreadData) (c1 c2 : List ThreadRow)
    (h : c1.length = c2.length) :
    (buildThreadIdMap v c1).map Prod.fst = (buildThreadIdMap v c2).map Prod.fst := by
  induction v generalizing c1 c2 with
  | nil => simp [buildThreadIdMap]
  | cons vt vrest ih =>
    cases c1 with
    | nil =>
      cases c2 with
      | nil => rfl
      | cons c cs => simp at h
    | cons c cs =>
      cases c2 with
      | nil => simp at h
      | cons c' cs' =>
        simp only [List.length_cons, Nat.add_right_cancel_iff] at h
        by_cases hid : vt.id ≠ ""
        · simp only [buildThreadIdMap, List.zip_cons_cons, List.filterMap_cons]
          rw [if_pos hid, if_pos hid]
          simp only [List.map_cons]
          exact congrArg (List.cons vt.id) (ih cs cs' h)
        · simp only [buildThreadIdMap, List.zip_cons_cons, List.filterMap_cons]
          rw [if_neg hid, if_neg hid]
          exact ih cs cs' h

theorem buildThreadIdMap_values (v : List GmailThreadData) (c : List ThreadRow) :
    ∀ k val, (k, val) ∈ buildThreadIdMap v c → ∃ r ∈ c, r.id = val := by
  intro k val hmem
  unfold buildThreadIdMap at hmem
  rcases List.mem_filterMap.mp hmem with ⟨⟨vt, ct⟩, hzip, hval⟩
  by_cases hid : vt.id ≠ ""
  · rw [if_pos hid] at hval
    injection hval with hpair
    rw [Prod.mk.injEq] at hpair
    exact ⟨ct, (List.of_mem_zip hzip).2, hpair.2⟩
  · rw [if_neg hid] at hval
    exact absurd hval (Option.noConfusion)

theorem threadKeyPresent_congr {d : ThreadCreateData} {s s' : Store}
    (h : s.threads = s'.threads) : threadKeyPresent d s ↔ threadKeyPresent d s' := by
  unfold threadKeyPresent
  rw [h]

theorem msgPresent_congr {gid : String} {s s' : Store}
    (h : s.messages = s'.messages) : msgPresent gid s ↔ msgPresent gid s' := by
  unfold msgPresent
  rw [h]

theorem attPairPresent_congr {mid : Nat} {aid : String} {s s' : Store}
    (h : s.attachments = s'.attachments) :
    attPairPresent mid aid s ↔ attPairPresent mid aid s' := by
  unfold attPairPresent
  rw [h]

theorem messageCreateMany_of_any (batch : List (MessageCreateData × Option Nat))
    (s : Store) (h : batch.any (fun md => md.2 = none)) :
    messageCreateMany batch s = s := by
  unfold messageCreateMany
  rw [if_pos h]

theorem buildMessageIdMap_congr (mds : List MessageCreateData) {s s' : Store}
    (h : s.messages = s'.messages) :
    buildMessageIdMap mds s = buildMessageIdMap mds s' := by
  unfold buildMessageIdMap
  rw [h]

theorem buildMessageIdMap_values (mds : List MessageCreateData) (s : Store) :
    ∀ k mid, lookupMapStr (buildMessageIdMap mds s) k = some mid →
      ∃ m ∈ s.messages, m.id = mid := by
  intro k mid h
  have hmem := lookupMapStr_some_mem _ _ _ h
  unfold buildMessageIdMap at hmem
  rcases List.mem_map.mp hmem with ⟨m, hm, hpair⟩
  rw [Prod.mk.injEq] at hpair
  exact ⟨m, List.mem_of_mem_filter hm, hpair.2⟩

theorem mapAnyNone_congr (mds : List MessageCreateData) (m1 m2 : List (String × Nat))
    (h : ∀ k, (lookupMapStr m1 k = none) ↔ (lookupMapStr m2 k = none)) :
    ((mds.map fun md => (md, lookupMapStr m1 md.gmailThreadId)).any
        fun md => md.2 = none)
      = ((mds.map fun md => (md, lookupMapStr m2 md.gmailThreadId)).any
        fun md => md.2 = none) := by
  induction mds with
  | nil => rfl
  | cons md rest ih =>
    simp only [List.map_cons, List.any_cons, ih]
    congr 1
    exact decide_eq_decide.mpr (h md.gmailThreadId)

/-- Re-running the persistence step of syncThreadsBulk over the same prepared
batch leaves the thread, message and attachment tables of the first run
untouched: thread upserts only update, message inserts only skip duplicates,
and attachment processing skips every pair that was stored. -/
theorem persistBulk_idem_counts (uid : String)
    (g : String → String → Option String) (v : List GmailThreadData)
    (prep : BulkPrep) (s : Store) :
    (persistBulk uid g v prep (persistBulk uid g v prep s)).threads.length
        = (persistBulk uid g v prep s).threads.length ∧
    (persistBulk uid g v prep (persistBulk uid g v prep s)).messages
        = (persistBulk uid g v prep s).messages ∧
    (persistBulk uid g v prep (persistBulk uid g v prep s)).attachments
        = (persistBulk uid g v prep s).attachments := by
  unfold persistBulk
  dsimp only
  set r1 := runThreadUpserts prep.threadsToCreate s with hr1
  set map1 := buildThreadIdMap v r1.2 with hmap1
  set mwt1 := prep.messagesToCreate.map
    (fun md => (md, lookupMapStr map1 md.gmailThreadId)) with hmwt1
  set s2 := messageCreateMany mwt1 r1.1 with hs2
  set s3 := (if prep.attachmentsToProcess.length > 0 then
    processAttachments uid g prep.messagesToCreate prep.attachmentsToProcess s2
    else s2) with hs3
  set s4 := syncThreadLabelsBulk uid v r1.2 s3 with hs4
  set s5 := runUploadTasks prep.s3UploadTasks s4 with hs5
  -- stage facts of the first run
  have h3t : s3.threads = s2.threads := by
    rw [hs3]
    split
    · exact (attachmentsFold_frame _ _ _ _ _).1
    · rfl
  have h3m : s3.messages = s2.messages := by
    rw [hs3]
    split
    · exact (attachmentsFold_frame _ _ _ _ _).2.1
    · rfl
  have h5t : s5.threads = r1.1.threads := by
    rw [hs5, (runUploadTasks_frame _ _).1, hs4, (syncThreadLabelsBulk_frame _ _ _ _).1,
      h3t, hs2, (messageCreateMany_frame _ _).1]
  have h5m : s5.messages = s2.messages := by
    rw [hs5, (runUploadTasks_frame _ _).2.1, hs4,
      (syncThreadLabelsBulk_frame _ _ _ _).2.1, h3m]
  have h5a : s5.attachments = s3.attachments := by
    rw [hs5, (runUploadTasks_frame _ _).2.2.1, hs4,
      (syncThreadLabelsBulk_frame _ _ _ _).2.2.1]
  -- second run stages
  set r2 := runThreadUpserts prep.threadsToCreate s5 with hr2
  set map2 := buildThreadIdMap v r2.2 with hmap2
  set mwt2 := prep.messagesToCreate.map
    (fun md => (md, lookupMapStr map2 md.gmailThreadId)) with hmwt2
  set t2 := messageCreateMany mwt2 r2.1 with ht2def
  set t3 := (if prep.attachmentsToProcess.length > 0 then
    processAttachments uid g prep.messagesToCreate prep.attachmentsToProcess t2
    else t2) with ht3def
  set t4 := syncThreadLabelsBulk uid v r2.2 t3 with ht4def
  -- the keys of the two thread id maps agree
  have hctlen : r2.2.length = r1.2.length := by
    rw [hr1, hr2, runThreadUpserts_rows_length, runThreadUpserts_rows_length]
  have keysEq : map2.map Prod.fst = map1.map Prod.fst := by
    rw [hmap1, hmap2]
    exact buildThreadIdMap_keys v r2.2 r1.2 hctlen
  -- every thread key is already present before the second run
  have hkeys : ∀ d ∈ prep.threadsToCreate, threadKeyPresent d s5 := by
    intro d hd
    exact (threadKeyPresent_congr h5t).mpr
      (hr1 ▸ runThreadUpserts_keys_after prep.threadsToCreate s d hd)
  have lenThreads : r2.1.threads.length = s5.threads.length := by
    rw [hr2]
    exact runThreadUpserts_threads_length prep.threadsToCreate s5 hkeys
  have hr2m : r2.1.messages = s5.messages := by
    rw [hr2]; exact (runThreadUpserts_frame _ _).1
  have hr2a : r2.1.attachments = s5.attachments := by
    rw [hr2]; exact (runThreadUpserts_frame _ _).2.1
  -- the message insert of the second run is a no-op
  have condEq : (mwt2.any fun md => md.2 = none) = (mwt1.any fun md => md.2 = none) := by
    rw [hmwt1, hmwt2]
    exact mapAnyNone_congr prep.messagesToCreate map2 map1
      (fun k => lookupMapStr_keys_none_congr map2 map1 keysEq k)
  have ht2 : t2 = r2.1 := by
    by_cases hfail : mwt1.any (fun md => md.2 = none)
    · rw [ht2def]
      exact messageCreateMany_of_any mwt2 r2.1 (by rw [condEq]; exact hfail)
    · have hpresent1 : ∀ md ∈ mwt1, msgPresent md.1.gmailMessageId s2 := by
        rw [hs2]
        exact messageCreateMany_present_all mwt1 r1.1 hfail
      rw [ht2def]
      apply messageCreateMany_noop
      intro md hmd
      rw [hmwt2] at hmd
      rcases List.mem_map.mp hmd with ⟨mdc, hmdc, rfl⟩
      have h1 : msgPresent mdc.gmailMessageId s2 :=
        hpresent1 (mdc, lookupMapStr map1 mdc.gmailThreadId)
          (by rw [hmwt1]; exact List.mem_map.mpr ⟨mdc, hmdc, rfl⟩)
      exact (msgPresent_congr hr2m).mpr ((msgPresent_congr h5m).mpr h1)
  -- the attachment processing of the second run is a no-op
  have ht2m : t2.messages = s2.messages := by
    rw [ht2, hr2m, h5m]
  have ht2a : t2.attachments = s5.attachments := by
    rw [ht2, hr2a]
  have ht3 : t3 = t2 := by
    rw [ht3def]
    split
    · next hguard =>
      show processAttachments uid g prep.messagesToCreate prep.attachmentsToProcess t2 = t2
      unfold processAttachments
      rw [buildMessageIdMap_congr prep.messagesToCreate ht2m]
      apply attachmentsFold_noop
      intro it hit mid hlk
      by_cases htr : optStrTruthy (g it.1 it.2.attachmentId)
      · left
        have hs3eq : s3 = attachmentsFold uid g
            (buildMessageIdMap prep.messagesToCreate s2)
            prep.attachmentsToProcess s2 := by
          rw [hs3, if_pos hguard]
          rfl
        have hpost : attPairPresent mid it.2.attachmentId s3 := by
          rw [hs3eq]
          exact attachmentsFold_post uid g _ prep.attachmentsToProcess s2 it hit mid
            hlk htr
        exact (attPairPresent_congr ht2a).mpr ((attPairPresent_congr h5a).mpr hpost)
      · right
        exact htr
    · rfl
  -- assemble the counts
  have ht4t : t4.threads = t2.threads := by
    rw [ht4def, (syncThreadLabelsBulk_frame _ _ _ _).1, ht3]
  have ht4m : t4.messages = t2.messages := by
    rw [ht4def, (syncThreadLabelsBulk_frame _ _ _ _).2.1, ht3]
  have ht4a : t4.attachments = t2.attachments := by
    rw [ht4def, (syncThreadLabelsBulk_frame _ _ _ _).2.2.1, ht3]
  refine ⟨?_, ?_, ?_⟩
  · rw [(runUploadTasks_frame _ _).1, ht4t, ht2, lenThreads]
  · rw [(runUploadTasks_frame _ _).2.1, ht4m, ht2m, h5m]
  · rw [(runUploadTasks_frame _ _).2.2.1, ht4a, ht2a]

/-- C1: for every owner and fixed external thread set, running the bulk sync
pipeline twice over the same thread batch leaves exactly the same thread,
message and attachment row counts as running it once: thread writes are
upserts on (owner, external thread id), message writes skip duplicates on
the external message id, and attachment writes are guarded by an existence
check on (message, external attachment id), so the second run creates no
row. The message and attachment tables are even unchanged as lists. -/
theorem syncThreadsBulk_rerun_row_counts (uid : String)
    (fetchThread : String → Option GmailThreadData)
    (getAttach : String → String → Option String)
    (items : List ThreadStub) (s : Store) :
    ((syncThreadsBulk uid fetchThread getAttach items
        (syncThreadsBulk uid fetchThread getAttach items s).1).1.threads.length
      = (syncThreadsBulk uid fetchThread getAttach items s).1.threads.length) ∧
    ((syncThreadsBulk uid fetchThread getAttach items
        (syncThreadsBulk uid fetchThread getAttach items s).1).1.messages
      = (syncThreadsBulk uid fetchThread getAttach items s).1.messages) ∧
    ((syncThreadsBulk uid fetchThread getAttach items
        (syncThreadsBulk uid fetchThread getAttach items s).1).1.attachments
      = (syncThreadsBulk uid fetchThread getAttach items s).1.attachments) :=
  persistBulk_idem_counts uid getAttach
    (items.filterMap (fun (it : ThreadStub) => fetchThread it.id))
    (prepareBulk uid (items.filterMap (fun (it : ThreadStub) => fetchThread it.id))) s

theorem insertMessages_messages_mono (batch : List (MessageCreateData × Option Nat))
    (s : Store) (m : MessageRow) (h : m ∈ s.messages) :
    m ∈ (insertMessages batch s).messages := by
  induction batch generalizing s with
  | nil => exact h
  | cons md rest ih =>
    rcases md with ⟨md, _ | tid⟩
    · exact ih s h
    · by_cases hdup : s.messages.any (fun x => x.gmailMessageId = md.gmailMessageId)
      · simp only [insertMessages, hdup, if_pos]
        exact ih s h
      · simp only [insertMessages, hdup, Bool.false_eq_true, if_neg, not_false_iff]
        exact ih _ (List.mem_append_left _ h)

theorem messageCreateMany_messages_mono (batch : List (MessageCreateData × Option Nat))
    (s : Store) (m : MessageRow) (h : m ∈ s.messages) :
    m ∈ (messageCreateMany batch s).messages := by
  unfold messageCreateMany
  split
  · exact h
  · exact insertMessages_messages_mono batch s m h

theorem messageCreateMany_integrity (ths : List ThreadRow)
    (batch : List (MessageCreateData × Option Nat)) (s : Store)
    (hth : s.threads = ths)
    (hbatch : ∀ md ∈ batch, ∀ tid, md.2 = some tid → ∃ t ∈ ths, t.id = tid)
    (hmsgs : ∀ m ∈ s.messages, ∃ t ∈ ths, t.id = m.threadId) :
    ∀ m ∈ (messageCreateMany batch s).messages, ∃ t ∈ ths, t.id = m.threadId := by
  unfold messageCreateMany
  split
  · exact hmsgs
  · exact insertMessages_integrity ths batch s hth hbatch hmsgs

/-- Re-running aside, one run of the persistence step preserves referential
integrity: inserted messages point at upserted thread rows and inserted
attachments point at resolved message rows. -/
theorem persistBulk_ref_integrity (uid : String)
    (g : String → String → Option String) (v : List GmailThreadData)
    (prep : BulkPrep) (s : Store) (h : RefIntegrity s) :
    RefIntegrity (persistBulk uid g v prep s) := by
  unfold persistBulk
  dsimp only
  set r1 := runThreadUpserts prep.threadsToCreate s with hr1
  set map1 := buildThreadIdMap v r1.2 with hmap1
  set mwt1 := prep.messagesToCreate.map
    (fun md => (md, lookupMapStr map1 md.gmailThreadId)) with hmwt1
  set s2 := messageCreateMany mwt1 r1.1 with hs2
  set s3 := (if prep.attachmentsToProcess.length > 0 then
    processAttachments uid g prep.messagesToCreate prep.attachmentsToProcess s2
    else s2) with hs3
  set s4 := syncThreadLabelsBulk uid v r1.2 s3 with hs4
  -- frames
  have hr1m : r1.1.messages = s.messages := by
    rw [hr1]; exact (runThreadUpserts_frame _ _).1
  have hr1a : r1.1.attachments = s.attachments := by
    rw [hr1]; exact (runThreadUpserts_frame _ _).2.1
  have h2t : s2.threads = r1.1.threads := by
    rw [hs2]; exact (messageCreateMany_frame _ _).1
  have h2a : s2.attachments = r1.1.attachments := by
    rw [hs2]; exact (messageCreateMany_frame _ _).2.1
  have h3t : s3.threads = s2.threads := by
    rw [hs3]; split
    · exact (attachmentsFold_frame _ _ _ _ _).1
    · rfl
  have h3m : s3.messages = s2.messages := by
    rw [hs3]; split
    · exact (attachmentsFold_frame _ _ _ _ _).2.1
    · rfl
  have h4t : s4.threads = s3.threads := (syncThreadLabelsBulk_frame _ _ _ _).1
  have h4m : s4.messages = s3.messages := (syncThreadLabelsBulk_frame _ _ _ _).2.1
  have h4a : s4.attachments = s3.attachments := (syncThreadLabelsBulk_frame _ _ _ _).2.2.1
  have h5t : (runUploadTasks prep.s3UploadTasks s4).threads = s4.threads :=
    (runUploadTasks_frame _ _).1
  have h5m : (runUploadTasks prep.s3UploadTasks s4).messages = s4.messages :=
    (runUploadTasks_frame _ _).2.1
  have h5a : (runUploadTasks prep.s3UploadTasks s4).attachments = s4.attachments :=
    (runUploadTasks_frame _ _).2.2.1
  -- message integrity against the upserted thread table
  have hmsgs2 : ∀ m ∈ s2.messages, ∃ t ∈ r1.1.threads, t.id = m.threadId := by
    rw [hs2]
    apply messageCreateMany_integrity r1.1.threads mwt1 r1.1 rfl
    · intro md hmd tid htid
      rw [hmwt1] at hmd
      rcases List.mem_map.mp hmd with ⟨mdc, _, rfl⟩
      have hmem := lookupMapStr_some_mem _ _ _ htid
      rw [hmap1] at hmem
      rcases buildThreadIdMap_values v r1.2 _ _ hmem with ⟨r, hr, hrid⟩
      have := runThreadUpserts_rows_ids prep.threadsToCreate s r (by rw [← hr1]; exact hr)
      rw [← hr1] at this
      rcases this with ⟨t, ht, htid2⟩
      exact ⟨t, ht, by rw [htid2, hrid]⟩
    · intro m hm
      rw [hr1m] at hm
      rcases h.1 m hm with ⟨t, ht, htid⟩
      have := runThreadUpserts_id_present_mono prep.threadsToCreate s m.threadId
        ⟨t, ht, htid⟩
      rw [← hr1] at this
      exact this
  -- attachment integrity against the inserted message table
  have hatts2 : ∀ a ∈ s2.attachments, ∃ m ∈ s2.messages, m.id = a.messageId := by
    intro a ha
    rw [h2a, hr1a] at ha
    rcases h.2 a ha with ⟨m, hm, hmid⟩
    refine ⟨m, ?_, hmid⟩
    rw [hs2]
    apply messageCreateMany_messages_mono
    rw [hr1m]
    exact hm
  have hatts3 : ∀ a ∈ s3.attachments, ∃ m ∈ s2.messages, m.id = a.messageId := by
    rw [hs3]
    split
    · refine attachmentsFold_integrity uid g _ prep.attachmentsToProcess s2
        s2.messages ?_ hatts2
      exact buildMessageIdMap_values prep.messagesToCreate s2
    · exact hatts2
  constructor
  · intro m hm
    rw [h5m, h4m, h3m] at hm
    rcases hmsgs2 m hm with ⟨t, ht, htid⟩
    refine ⟨t, ?_, htid⟩
    rw [h5t, h4t, h3t, h2t]
    exact ht
  · intro a ha
    rw [h5a, h4a] at ha
    rcases hatts3 a ha with ⟨m, hm, hmid⟩
    refine ⟨m, ?_, hmid⟩
    rw [h5m, h4m, h3m]
    exact hm

/-- C5: the bulk persistence step preserves referential integrity of the
record store: no message row is persisted whose thread row does not exist
(thread upserts land first and resolved thread ids are attached before the
bulk message insert, whose statement fails atomically when an id is
unresolved), and no attachment row is persisted whose message row does not
exist (attachments whose parent message id fails to resolve are filtered
out). -/
theorem syncThreadsBulk_ref_integrity (uid : String)
    (fetchThread : String → Option GmailThreadData)
    (getAttach : String → String → Option String)
    (items : List ThreadStub) (s : Store) (h : RefIntegrity s) :
    RefIntegrity (syncThreadsBulk uid fetchThread getAttach items s).1 :=
  persistBulk_ref_integrity uid getAttach
    (items.filterMap (fun (it : ThreadStub) => fetchThread it.id))
    (prepareBulk uid (items.filterMap (fun (it : ThreadStub) => fetchThread it.id))) s h

/-- C5 witness: the theorem applied to the fixture store (no messages, no
attachments) and a batch containing one thread with one message. -/
theorem syncThreadsBulk_ref_integrity_witness :
    RefIntegrity storeC6 ∧
    RefIntegrity (syncThreadsBulk "u" fetchC6 (fun _ _ => none) [⟨"t1"⟩] storeC6).1 :=
  ⟨by constructor <;> (intro x hx; simp [storeC6, emptyStore] at hx),
   syncThreadsBulk_ref_integrity "u" fetchC6 (fun _ _ => none) [⟨"t1"⟩] storeC6
     (by constructor <;> (intro x hx; simp [storeC6, emptyStore] at hx))⟩

/-! ## Lemmas about the job state machine and syncBatch -/

theorem syncLabelsStep_frame (uid : String) (s : Store) (l : GmailLabel) :
    (syncLabelsStep uid s l).threads = s.threads ∧
    (syncLabelsStep uid s l).messages = s.messages ∧
    (syncLabelsStep uid s l).attachments = s.attachments ∧
    (syncLabelsStep uid s l).labelThreads = s.labelThreads ∧
    (syncLabelsStep uid s l).syncJobs = s.syncJobs ∧
    (syncLabelsStep uid s l).users = s.users ∧
    (syncLabelsStep uid s l).s3Objects = s.s3Objects := by
  unfold syncLabelsStep
  dsimp only
  split <;> exact ⟨rfl, rfl, rfl, rfl, rfl, rfl, rfl⟩

theorem syncLabels_frame (uid : String) (lr : List GmailLabel) (s : Store) :
    (syncLabels uid lr s).threads = s.threads ∧
    (syncLabels uid lr s).messages = s.messages ∧
    (syncLabels uid lr s).attachments = s.attachments ∧
    (syncLabels uid lr s).labelThreads = s.labelThreads ∧
    (syncLabels uid lr s).syncJobs = s.syncJobs ∧
    (syncLabels uid lr s).users = s.users ∧
    (syncLabels uid lr s).s3Objects = s.s3Objects := by
  induction lr generalizing s with
  | nil => exact ⟨rfl, rfl, rfl, rfl, rfl, rfl, rfl⟩
  | cons l rest ih =>
    have h1 := syncLabelsStep_frame uid s l
    have h2 := ih (syncLabelsStep uid s l)
    refine ⟨h2.1.trans h1.1, h2.2.1.trans h1.2.1, h2.2.2.1.trans h1.2.2.1,
      h2.2.2.2.1.trans h1.2.2.2.1, h2.2.2.2.2.1.trans h1.2.2.2.2.1,
      h2.2.2.2.2.2.1.trans h1.2.2.2.2.2.1, h2.2.2.2.2.2.2.trans h1.2.2.2.2.2.2⟩

theorem persistBulk_jobs_users (uid : String) (g : String → String → Option String)
    (v : List GmailThreadData) (prep : BulkPrep) (s : Store) :
    (persistBulk uid g v prep s).syncJobs = s.syncJobs ∧
    (persistBulk uid g v prep s).users = s.users := by
  unfold persistBulk
  dsimp only
  set r1 := runThreadUpserts prep.threadsToCreate s with hr1
  set s2 := messageCreateMany (prep.messagesToCreate.map
    (fun md => (md, lookupMapStr (buildThreadIdMap v r1.2) md.gmailThreadId))) r1.1
    with hs2
  set s3 := (if prep.attachmentsToProcess.length > 0 then
    processAttachments uid g prep.messagesToCreate prep.attachmentsToProcess s2
    else s2) with hs3
  have h1j : r1.1.syncJobs = s.syncJobs := by
    rw [hr1]; exact (runThreadUpserts_frame _ _).2.2.2.2.1
  have h1u : r1.1.users = s.users := by
    rw [hr1]; exact (runThreadUpserts_frame _ _).2.2.2.2.2.1
  have h2j : s2.syncJobs = r1.1.syncJobs := by
    rw [hs2]; exact (messageCreateMany_frame _ _).2.2.2.2.1
  have h2u : s2.users = r1.1.users := by
    rw [hs2]; exact (messageCreateMany_frame _ _).2.2.2.2.2.1
  have h3j : s3.syncJobs = s2.syncJobs := by
    rw [hs3]; split
    · exact (attachmentsFold_frame _ _ _ _ _).2.2.2.2.1
    · rfl
  have h3u : s3.users = s2.users := by
    rw [hs3]; split
    · exact (attachmentsFold_frame _ _ _ _ _).2.2.2.2.2
    · rfl
  constructor
  · rw [(runUploadTasks_frame _ _).2.2.2.2.2.1,
      (syncThreadLabelsBulk_frame _ _ _ _).2.2.2.2.1, h3j, h2j, h1j]
  · rw [(runUploadTasks_frame _ _).2.2.2.2.2.2.1,
      (syncThreadLabelsBulk_frame _ _ _ _).2.2.2.2.2.1, h3u, h2u, h1u]

theorem foldl_latestJob_ne_none (l : List SyncJobRow) (a : SyncJobRow) :
    l.foldl latestJob (some a) ≠ none := by
  induction l generalizing a with
  | nil => simp
  | cons j rest ih =>
    rw [List.foldl_cons]
    by_cases hlt : a.startedAt < j.startedAt
    · rw [show latestJob (some a) j = some j from by simp [latestJob, hlt]]
      exact ih j
    · rw [show latestJob (some a) j = some a from by simp [latestJob, hlt]]
      exact ih a

theorem findRunningJob_none_iff (uid : String) (s : Store) :
    findRunningJob uid s = none ↔
      s.syncJobs.filter (fun j => j.userId = uid ∧ j.status = JobStatus.RUNNING) = [] := by
  unfold findRunningJob
  cases hl : s.syncJobs.filter (fun j => j.userId = uid ∧ j.status = JobStatus.RUNNING) with
  | nil => simp
  | cons j rest =>
    simp only [List.foldl_cons]
    constructor
    · intro h
      exact absurd h (foldl_latestJob_ne_none rest j)
    · intro h
      exact absurd h (List.cons_ne_nil j rest)

theorem foldl_latestJob_mem (l : List SyncJobRow) (acc : Option SyncJobRow)
    (j : SyncJobRow) (h : l.foldl latestJob acc = some j) : j ∈ l ∨ acc = some j := by
  induction l generalizing acc with
  | nil => exact Or.inr h
  | cons x rest ih =>
    simp only [List.foldl_cons] at h
    rcases ih (latestJob acc x) h with hm | hacc
    · exact Or.inl (List.mem_cons_of_mem x hm)
    · rcases acc with _ | a
      · rw [show latestJob none x = some x from rfl] at hacc
        cases hacc
        exact Or.inl (List.mem_cons_self _ _)
      · by_cases hlt : a.startedAt < x.startedAt
        · rw [show latestJob (some a) x = some x from by simp [latestJob, hlt]] at hacc
          cases hacc
          exact Or.inl (List.mem_cons_self _ _)
        · rw [show latestJob (some a) x = some a from by simp [latestJob, hlt]] at hacc
          exact Or.inr hacc

theorem findRunningJob_some_mem (uid : String) (s : Store) (j : SyncJobRow)
    (h : findRunningJob uid s = some j) :
    j ∈ s.syncJobs ∧ j.userId = uid ∧ j.status = JobStatus.RUNNING := by
  unfold findRunningJob at h
  rcases foldl_latestJob_mem _ _ _ h with hm | hacc
  · have := List.mem_filter.mp hm
    simp only [decide_eq_true_eq] at this
    exact ⟨this.1, this.2.1, this.2.2⟩
  · exact absurd hacc (by simp)

theorem noNewFailed_updateFirst (p : SyncJobRow → Bool) (f : SyncJobRow → SyncJobRow)
    (s : Store) (l : List SyncJobRow)
    (hf : ∀ x, (f x).status = JobStatus.FAILED →
      x.status = JobStatus.FAILED ∧ (f x).id = x.id)
    (hs : s.syncJobs = l) :
    noNewFailed s { s with syncJobs := updateFirst p f l } := by
  intro j' hj' hfail
  rcases mem_updateFirst hj' with hm | ⟨x, hx, hpx, rfl⟩
  · exact ⟨j', by rw [hs]; exact hm, rfl, hfail⟩
  · rcases hf x hfail with ⟨hxf, hid⟩
    exact ⟨x, by rw [hs]; exact hx, hid.symm, hxf⟩

theorem noNewFailed_refl (s : Store) : noNewFailed s s :=
  fun j' hj' hfail => ⟨j', hj', rfl, hfail⟩

theorem noNewFailed_of_eq {s s' : Store} (h : s'.syncJobs = s.syncJobs) :
    noNewFailed s s' :=
  fun j' hj' hfail => ⟨j', h ▸ hj', rfl, hfail⟩

theorem noNewFailed_trans {a b c : Store} (h1 : noNewFailed a b)
    (h2 : noNewFailed b c) : noNewFailed a c := by
  intro j' hj' hfail
  rcases h2 j' hj' hfail with ⟨j, hj, hid, hf⟩
  rcases h1 j hj hf with ⟨j0, hj0, hid0, hf0⟩
  exact ⟨j0, hj0, hid0.trans hid, hf0⟩

theorem completeSyncJob_noNewFailed (jid : Option Nat) (err : Option String)
    (now : Nat) (s : Store) :
    noNewFailed s (completeSyncJob jid JobStatus.COMPLETED err now s) := by
  unfold completeSyncJob
  cases jid with
  | none => exact noNewFailed_refl s
  | some j =>
    unfold updateJob
    refine noNewFailed_updateFirst _ _ s s.syncJobs ?_ rfl
    intro x hx
    simp at hx

theorem updateJob_noNewFailed (jid : Nat) (f : SyncJobRow → SyncJobRow) (s : Store)
    (hf : ∀ x, (f x).status = x.status ∧ (f x).id = x.id) :
    noNewFailed s (updateJob jid f s) := by
  unfold updateJob
  refine noNewFailed_updateFirst _ _ s s.syncJobs ?_ rfl
  intro x hx
  exact ⟨(hf x).1 ▸ hx, (hf x).2⟩

theorem updateUserSync_syncJobs (uid : String) (f : UserRow → UserRow) (s : Store) :
    (updateUserSync uid f s).syncJobs = s.syncJobs := rfl

theorem findOrCreateSyncJob_noNewFailed (uid : String) (now : Nat)
    (lr : List GmailLabel) (s : Store) :
    noNewFailed s (findOrCreateSyncJob uid now lr s).1 := by
  unfold findOrCreateSyncJob
  dsimp only
  split
  · exact noNewFailed_refl s
  · intro j' hj' hfail
    rw [(syncLabels_frame uid lr _).2.2.2.2.1] at hj'
    dsimp only at hj'
    rcases List.mem_append.mp hj' with hm | hm
    · exact ⟨j', hm, rfl, hfail⟩
    · rcases List.mem_singleton.mp hm with rfl
      simp at hfail

theorem syncBatch_noNewFailed (uid : String) (now : Nat) (lr : List GmailLabel)
    (lt : Nat → Option String → ListThreadsResp)
    (f : String → Option GmailThreadData) (g : String → String → Option String)
    (s : Store) : noNewFailed s (syncBatch uid now lr lt f g s).1 := by
  unfold syncBatch
  dsimp only
  set fc := findOrCreateSyncJob uid now lr s with hfc
  have h0 : noNewFailed s fc.1 := by
    rw [hfc]; exact findOrCreateSyncJob_noNewFailed uid now lr s
  split
  · dsimp only
    refine noNewFailed_trans h0 ?_
    exact noNewFailed_trans
      (completeSyncJob_noNewFailed (some fc.2.id) none now fc.1)
      (noNewFailed_of_eq (updateUserSync_syncJobs _ _ _))
  · dsimp only
    set sB := (syncThreadsBulk uid f g
      (getNextThreadBatch lt 20 fc.2.nextPageToken).items fc.1).1 with hsB
    have hbulk : noNewFailed fc.1 sB := by
      rw [hsB]
      exact noNewFailed_of_eq (persistBulk_jobs_users _ _ _ _ _).1
    refine noNewFailed_trans h0 (noNewFailed_trans hbulk ?_)
    set sU := updateJob fc.2.id _ sB with hsU
    have hupd : noNewFailed sB sU := by
      rw [hsU]
      exact updateJob_noNewFailed _ _ _ (fun x => ⟨rfl, rfl⟩)
    refine noNewFailed_trans hupd ?_
    split
    · exact noNewFailed_trans
        (completeSyncJob_noNewFailed (some fc.2.id) none now sU)
        (noNewFailed_of_eq (updateUserSync_syncJobs _ _ _))
    · exact noNewFailed_refl _

theorem filterMap_length_all_some {α β : Type} (f : α → Option β) (l : List α)
    (h : ∀ x ∈ l, (f x).isSome) : (l.filterMap f).length = l.length := by
  induction l with
  | nil => rfl
  | cons x rest ih =>
    rcases Option.isSome_iff_exists.mp (h x (List.mem_cons_self _ _)) with ⟨b, hb⟩
    rw [List.filterMap_cons, hb, List.length_cons, List.length_cons,
      ih (fun y hy => h y (List.mem_cons_of_mem _ hy))]

/-- C7: a transient error while fetching one thread is caught at the item
boundary: for a batch with one failing thread among n, the bulk step still
reports exactly the other n - 1 threads as processed (the failed fetch
yields null and is filtered out before processing), and no job row ever
transitions to FAILED during syncBatch, whatever the inputs. -/
theorem syncThreadsBulk_single_failure_isolated (uid : String) (now : Nat)
    (lr : List GmailLabel) (lt : Nat → Option String → ListThreadsResp)
    (f : String → Option GmailThreadData) (g : String → String → Option String)
    (s : Store) (pre post : List ThreadStub) (bad : ThreadStub)
    (hpre : ∀ t ∈ pre, (f t.id).isSome)
    (hpost : ∀ t ∈ post, (f t.id).isSome)
    (hbad : f bad.id = none) :
    (syncThreadsBulk uid f g (pre ++ bad :: post) s).2 = pre.length + post.length ∧
    noNewFailed s (syncBatch uid now lr lt f g s).1 := by
  constructor
  · show ((pre ++ bad :: post).filterMap fun (it : ThreadStub) => f it.id).length = _
    have hcons : List.filterMap (fun (it : ThreadStub) => f it.id) (bad :: post)
        = List.filterMap (fun (it : ThreadStub) => f it.id) post :=
      List.filterMap_cons_none (by exact hbad)
    rw [List.filterMap_append, hcons, List.length_append,
      filterMap_length_all_some _ pre hpre, filterMap_length_all_some _ post hpost]
  · exact syncBatch_noNewFailed uid now lr lt f g s

/-- C7 witness: the theorem applied to a batch of two threads whose second
fetch fails, over the label fixture store. -/
theorem syncThreadsBulk_single_failure_isolated_witness :
    (∀ t ∈ [(⟨"t1"⟩ : ThreadStub)], (fetchC6 t.id).isSome) ∧
    (∀ t ∈ ([] : List ThreadStub), (fetchC6 t.id).isSome) ∧
    fetchC6 "tX" = none ∧
    ((syncThreadsBulk "u" fetchC6 (fun _ _ => none)
        ([⟨"t1"⟩] ++ (⟨"tX"⟩ : ThreadStub) :: []) storeC6).2
      = [(⟨"t1"⟩ : ThreadStub)].length + ([] : List ThreadStub).length ∧
     noNewFailed storeC6 (syncBatch "u" 3 [] listEmptyWithToken fetchC6
        (fun _ _ => none) storeC6).1) := by
  refine ⟨?_, ?_, ?_, ?_⟩
  · intro t ht
    rcases List.mem_singleton.mp ht with rfl
    rfl
  · intro t ht
    simp at ht
  · rfl
  · exact syncThreadsBulk_single_failure_isolated "u" 3 [] listEmptyWithToken
      fetchC6 (fun _ _ => none) storeC6 [⟨"t1"⟩] [] ⟨"tX"⟩
      (by intro t ht; rcases List.mem_singleton.mp ht with rfl; rfl)
      (by intro t ht; simp at ht) rfl

theorem updateFirst_filter_length_le (p p' : α → Bool) (f : α → α) (l : List α)
    (hf : ∀ x, p' (f x) = false) :
    ((updateFirst p f l).filter p').length ≤ (l.filter p').length := by
  induction l with
  | nil => exact Nat.le_refl _
  | cons x xs ih =>
    by_cases hx : p x
    · have hup : updateFirst p f (x :: xs) = f x :: xs := by simp [updateFirst, hx]
      rw [hup, List.filter_cons, List.filter_cons, hf x]
      by_cases hpx : p' x
      · rw [if_neg (by simp), if_pos hpx, List.length_cons]
        exact Nat.le_succ _
      · rw [if_neg (by simp), if_neg hpx]
    · have hup : updateFirst p f (x :: xs) = x :: updateFirst p f xs := by
        simp [updateFirst, hx]
      rw [hup, List.filter_cons, List.filter_cons]
      by_cases hpx : p' x
      · rw [if_pos hpx, if_pos hpx, List.length_cons, List.length_cons]
        exact Nat.succ_le_succ ih
      · rw [if_neg hpx, if_neg hpx]
        exact ih

theorem updateFirst_filter_length_eq (p p' : α → Bool) (f : α → α) (l : List α)
    (hf : ∀ x, p' (f x) = p' x) :
    ((updateFirst p f l).filter p').length = (l.filter p').length := by
  induction l with
  | nil => rfl
  | cons x xs ih =>
    by_cases hx : p x
    · have hup : updateFirst p f (x :: xs) = f x :: xs := by simp [updateFirst, hx]
      rw [hup, List.filter_cons, List.filter_cons, hf x]
      by_cases hpx : p' x
      · rw [if_pos hpx, if_pos hpx, List.length_cons, List.length_cons]
      · rw [if_neg hpx, if_neg hpx]
    · have hup : updateFirst p f (x :: xs) = x :: updateFirst p f xs := by
        simp [updateFirst, hx]
      rw [hup, List.filter_cons, List.filter_cons]
      by_cases hpx : p' x
      · rw [if_pos hpx, if_pos hpx, List.length_cons, List.length_cons, ih]
      · rw [if_neg hpx, if_neg hpx]
        exact ih

theorem atMostOneRunning_of_jobs_eq {uid : String} {s s' : Store}
    (h : s'.syncJobs = s.syncJobs) (ha : atMostOneRunning uid s) :
    atMostOneRunning uid s' := by
  unfold atMostOneRunning at ha ⊢
  rw [h]
  exact ha

theorem completeSyncJob_atMostOne (uid : String) (jid : Option Nat) (st : JobStatus)
    (err : Option String) (now : Nat) (s : Store) (h : atMostOneRunning uid s)
    (hst : st ≠ JobStatus.RUNNING) :
    atMostOneRunning uid (completeSyncJob jid st err now s) := by
  unfold completeSyncJob
  cases jid with
  | none => exact h
  | some j =>
    unfold atMostOneRunning at h ⊢
    unfold updateJob
    dsimp only
    refine Nat.le_trans (updateFirst_filter_length_le _ _ _ _ ?_) h
    intro x
    apply decide_eq_false
    intro hand
    exact hst hand.2

theorem updateJob_atMostOne (uid : String) (jid : Nat) (f : SyncJobRow → SyncJobRow)
    (s : Store) (hf : ∀ x, (f x).userId = x.userId ∧ (f x).status = x.status)
    (h : atMostOneRunning uid s) : atMostOneRunning uid (updateJob jid f s) := by
  unfold atMostOneRunning at h ⊢
  unfold updateJob
  dsimp only
  rw [updateFirst_filter_length_eq _ _ _ _ ?_]
  · exact h
  · intro x
    exact decide_eq_decide.mpr (by rw [(hf x).1, (hf x).2])

theorem findOrCreateSyncJob_atMostOne (uid : String) (now : Nat)
    (lr : List GmailLabel) (s : Store) (h : atMostOneRunning uid s) :
    atMostOneRunning uid (findOrCreateSyncJob uid now lr s).1 := by
  unfold findOrCreateSyncJob
  dsimp only
  split
  · exact h
  · next hnone =>
    have hnil := (findRunningJob_none_iff uid s).mp hnone
    apply atMostOneRunning_of_jobs_eq ((syncLabels_frame uid lr _).2.2.2.2.1)
    unfold atMostOneRunning
    dsimp only
    rw [List.filter_append, hnil, List.nil_append]
    exact Nat.le_trans (List.length_filter_le _ _) (by simp)

theorem syncBatch_atMostOne (uid : String) (now : Nat) (lr : List GmailLabel)
    (lt : Nat → Option String → ListThreadsResp)
    (f : String → Option GmailThreadData) (g : String → String → Option String)
    (s : Store) (h : atMostOneRunning uid s) :
    atMostOneRunning uid (syncBatch uid now lr lt f g s).1 := by
  unfold syncBatch
  dsimp only
  set fc := findOrCreateSyncJob uid now lr s with hfc
  have h0 : atMostOneRunning uid fc.1 := by
    rw [hfc]; exact findOrCreateSyncJob_atMostOne uid now lr s h
  split
  · dsimp only
    apply atMostOneRunning_of_jobs_eq (updateUserSync_syncJobs _ _ _)
    exact completeSyncJob_atMostOne uid _ JobStatus.COMPLETED none now fc.1 h0
      (by intro hc; cases hc)
  · dsimp only
    set sB := (syncThreadsBulk uid f g
      (getNextThreadBatch lt 20 fc.2.nextPageToken).items fc.1).1 with hsB
    have hB : atMostOneRunning uid sB := by
      rw [hsB]
      exact atMostOneRunning_of_jobs_eq (persistBulk_jobs_users _ _ _ _ _).1 h0
    set sU := updateJob fc.2.id _ sB with hsU
    have hu : atMostOneRunning uid sU := by
      rw [hsU]
      exact updateJob_atMostOne uid _ _ sB (fun x => ⟨rfl, rfl⟩) hB
    split
    · apply atMostOneRunning_of_jobs_eq (updateUserSync_syncJobs _ _ _)
      exact completeSyncJob_atMostOne uid _ JobStatus.COMPLETED none now sU hu
        (by intro hc; cases hc)
    · exact hu

/-- C3 counterexample support is separate; this is the amended statement.
C3 (amended): the batch entry point first looks for a RUNNING job of the
owner: when one exists, findOrCreateSyncJob returns it with the store
completely untouched, so the one-time label sync is skipped; when none
exists it creates a job with status RUNNING, zero counters, zero progress
and no cursor, appends it to the job table and performs the label sync; and
syncBatch as a whole preserves the at-most-one-RUNNING-job-per-owner
invariant. The continuous entry point syncMailbox, by contrast, creates its
job without any lookup, as the counterexample shows. -/
theorem syncBatch_find_or_create (uid : String) (now : Nat) (lr : List GmailLabel)
    (lt : Nat → Option String → ListThreadsResp)
    (f : String → Option GmailThreadData) (g : String → String → Option String)
    (s : Store) (h : atMostOneRunning uid s) :
    (∀ j, findRunningJob uid s = some j → findOrCreateSyncJob uid now lr s = (s, j)) ∧
    (findRunningJob uid s = none →
      ((findOrCreateSyncJob uid now lr s).2.status = JobStatus.RUNNING ∧
       (findOrCreateSyncJob uid now lr s).2.processedItems = 0 ∧
       (findOrCreateSyncJob uid now lr s).2.totalItems = 0 ∧
       (findOrCreateSyncJob uid now lr s).2.progress = 0 ∧
       (findOrCreateSyncJob uid now lr s).2.nextPageToken = none ∧
       (findOrCreateSyncJob uid now lr s).2
         ∈ (findOrCreateSyncJob uid now lr s).1.syncJobs)) ∧
    atMostOneRunning uid (syncBatch uid now lr lt f g s).1 := by
  refine ⟨?_, ?_, syncBatch_atMostOne uid now lr lt f g s h⟩
  · intro j hj
    unfold findOrCreateSyncJob
    rw [hj]
  · intro hnone
    unfold findOrCreateSyncJob
    rw [hnone]
    dsimp only
    refine ⟨rfl, rfl, rfl, rfl, rfl, ?_⟩
    rw [(syncLabels_frame uid lr _).2.2.2.2.1]
    exact List.mem_append_right _ (List.mem_singleton_self _)

/-- C3 witness: the amended theorem applied to the store holding one RUNNING
job for the owner. -/
theorem syncBatch_find_or_create_witness :
    atMostOneRunning "u" storeOneRunning ∧
    ((∀ j, findRunningJob "u" storeOneRunning = some j →
        findOrCreateSyncJob "u" 5 [] storeOneRunning = (storeOneRunning, j)) ∧
     (findRunningJob "u" storeOneRunning = none →
       ((findOrCreateSyncJob "u" 5 [] storeOneRunning).2.status = JobStatus.RUNNING ∧
        (findOrCreateSyncJob "u" 5 [] storeOneRunning).2.processedItems = 0 ∧
        (findOrCreateSyncJob "u" 5 [] storeOneRunning).2.totalItems = 0 ∧
        (findOrCreateSyncJob "u" 5 [] storeOneRunning).2.progress = 0 ∧
        (findOrCreateSyncJob "u" 5 [] storeOneRunning).2.nextPageToken = none ∧
        (findOrCreateSyncJob "u" 5 [] storeOneRunning).2
          ∈ (findOrCreateSyncJob "u" 5 [] storeOneRunning).1.syncJobs)) ∧
     atMostOneRunning "u" (syncBatch "u" 5 [] listEmptyWithToken fetchC6
        (fun _ _ => none) storeOneRunning).1) :=
  ⟨by unfold atMostOneRunning; decide,
   syncBatch_find_or_create "u" 5 [] listEmptyWithToken fetchC6 (fun _ _ => none)
     storeOneRunning (by unfold atMostOneRunning; decide)⟩

/-! ## C2: progress accounting of updateSyncProgress -/

theorem jsRound_eq {q : ℚ} {n : ℤ} (h1 : (n : ℚ) ≤ q + 1/2)
    (h2 : q + 1/2 < (n : ℚ) + 1) : jsRound q = n := by
  unfold jsRound
  rw [Int.floor_eq_iff]
  exact ⟨h1, by exact_mod_cast h2⟩

theorem jsRound_mono {q₁ q₂ : ℚ} (h : q₁ ≤ q₂) : jsRound q₁ ≤ jsRound q₂ := by
  unfold jsRound
  exact Int.floor_le_floor (by linarith)

/-- C2 counterexample: two recordProgress calls with non-decreasing processed
values (50 then 60) but a growing total estimate make the stored progress
drop from 50 to 30, so the stored progress is not monotone over such a
sequence as the claim states. -/
theorem updateSyncProgress_not_monotone_cex :
    (applySyncProgress 50 100 jobZero).progress = 50 ∧
    (applySyncProgress 60 200 (applySyncProgress 50 100 jobZero)).progress = 30 := by
  constructor
  · have e : (applySyncProgress 50 100 jobZero).progress
        = jsRound (min ((50 : ℚ) / (100 : ℚ) * 100) 100) := by
      norm_num [applySyncProgress]
    rw [e]
    apply jsRound_eq <;> norm_num
  · have e : (applySyncProgress 60 200 (applySyncProgress 50 100 jobZero)).progress
        = jsRound (min ((60 : ℚ) / (200 : ℚ) * 100) 100) := by
      norm_num [applySyncProgress]
    rw [e]
    apply jsRound_eq <;> norm_num

/-- C2 (amended): each updateSyncProgress call stores exactly
round(min(processed / max(totalEstimate, processed) * 100, 100)), the stored
progress never exceeds 100, and for a fixed totalEstimate the stored progress
is monotone in the processed count; monotonicity can fail when the total
estimate grows between the calls, as the counterexample shows. -/
theorem updateSyncProgress_formula_bounded_monotone
    (p₁ p₂ t : ℕ) (j₁ j₂ : SyncJobRow) (h : p₁ ≤ p₂) :
    (∀ (p : ℕ) (j : SyncJobRow), (applySyncProgress p t j).progress
        = jsRound (min ((p : ℚ) / ((max t p : ℕ) : ℚ) * 100) 100)) ∧
    (∀ (p : ℕ) (j : SyncJobRow), (applySyncProgress p t j).progress ≤ 100) ∧
    (applySyncProgress p₁ t j₁).progress ≤ (applySyncProgress p₂ t j₂).progress := by
  have formula : ∀ (p : ℕ) (j : SyncJobRow), (applySyncProgress p t j).progress
      = jsRound (min ((p : ℚ) / ((max t p : ℕ) : ℚ) * 100) 100) := by
    intro p j
    by_cases hz : 0 < max t p
    · simp [applySyncProgress, hz]
    · have hp : p = 0 := by omega
      have ht : t = 0 := by omega
      subst hp; subst ht
      norm_num [applySyncProgress]
  have hmono : ∀ (q₁ q₂ : ℕ), q₁ ≤ q₂ →
      min ((q₁ : ℚ) / ((max t q₁ : ℕ) : ℚ) * 100) 100
        ≤ min ((q₂ : ℚ) / ((max t q₂ : ℕ) : ℚ) * 100) 100 := by
    intro q₁ q₂ hq
    by_cases hq2 : q₂ ≤ t
    · have hq1 : q₁ ≤ t := le_trans hq hq2
      rw [max_eq_left hq1, max_eq_left hq2]
      rcases Nat.eq_zero_or_pos t with rfl | htpos
      · norm_num
      · have htq : (0:ℚ) < (t : ℚ) := by exact_mod_cast htpos
        have hc : (q₁ : ℚ) ≤ (q₂ : ℚ) := by exact_mod_cast hq
        apply min_le_min _ le_rfl
        gcongr
    · have hq2' : t < q₂ := Nat.lt_of_not_le hq2
      have e2 : max t q₂ = q₂ := max_eq_right (le_of_lt hq2')
      have hne : (q₂ : ℚ) ≠ 0 := by
        have : 0 < q₂ := by omega
        exact_mod_cast this.ne'
      have hval : ((q₂ : ℚ) / ((max t q₂ : ℕ) : ℚ) * 100) = 100 := by
        rw [e2]; field_simp
      rw [hval, min_self]
      exact min_le_right _ _
  refine ⟨formula, fun p j => ?_, ?_⟩
  · rw [formula]
    have h100 : jsRound (100 : ℚ) = 100 := by
      apply jsRound_eq <;> norm_num
    calc jsRound (min ((p : ℚ) / ((max t p : ℕ) : ℚ) * 100) 100)
        ≤ jsRound 100 := jsRound_mono (min_le_right _ _)
      _ = 100 := h100
  · rw [formula, formula]
    exact jsRound_mono (hmono p₁ p₂ h)

/-- C2 witness: the amended theorem applied at processed counts 1 and 2 with
total estimate 4. -/
theorem updateSyncProgress_formula_bounded_monotone_witness :
    (1 ≤ 2) ∧
    ((applySyncProgress 1 4 jobZero).progress
        = jsRound (min ((1 : ℚ) / ((max 4 1 : ℕ) : ℚ) * 100) 100) ∧
     (applySyncProgress 1 4 jobZero).progress ≤ 100 ∧
     (applySyncProgress 1 4 jobZero).progress ≤ (applySyncProgress 2 4 jobZero).progress) :=
  ⟨by decide, by
    obtain ⟨hf, hb, hm⟩ :=
      updateSyncProgress_formula_bounded_monotone 1 2 4 jobZero jobZero (by decide)
    exact ⟨hf 1 jobZero, hb 1 jobZero, hm⟩⟩

/-! ## C4: completeSyncJob -/

/-- C4 counterexample: completing a job that still carries a continuation
cursor leaves the cursor in place; the COMPLETED row still has
nextPageToken tok, so complete does not clear nextPageToken and a COMPLETED
job can violate the claimed cursor invariant. -/
theorem completeSyncJob_keeps_nextPageToken_cex :
    ((completeSyncJob (some 0) JobStatus.COMPLETED none 7 storeTok).syncJobs.map
        (fun j => (j.status, j.nextPageToken)))
      = [(JobStatus.COMPLETED, some "tok")] := by
  rfl

/-- C4 (amended): completeSyncJob sets the status of the job row to the given
terminal outcome, sets completedAt to the current time, forces progress to
100 exactly when the outcome is COMPLETED, and leaves nextPageToken
unchanged rather than clearing it; rows with a different id are untouched.
Because the cursor is left in place, the invariant that nextPageToken is
non-null only on a RUNNING job with more pages is not reestablished by
complete. -/
theorem completeSyncJob_fields (s : Store) (jid : Nat) (st : JobStatus)
    (err : Option String) (now : Nat) (j₀ : SyncJobRow)
    (hfind : s.syncJobs.find? (fun j => j.id = jid) = some j₀) :
    (∃ j₁ ∈ (completeSyncJob (some jid) st err now s).syncJobs,
        j₁.id = j₀.id ∧ j₁.status = st ∧ j₁.completedAt = some now ∧
        j₁.nextPageToken = j₀.nextPageToken ∧
        (st = JobStatus.COMPLETED → j₁.progress = 100) ∧
        (st ≠ JobStatus.COMPLETED → j₁.progress = j₀.progress)) ∧
    (∀ j₁ ∈ (completeSyncJob (some jid) st err now s).syncJobs,
        j₁.id ≠ jid → j₁ ∈ s.syncJobs) := by
  constructor
  · refine ⟨_, updateFirst_of_find? hfind, ?_⟩
    by_cases hst : st = JobStatus.COMPLETED <;> simp [hst]
  · intro j₁ hmem hne
    rcases mem_updateFirst hmem with h | ⟨x, hx, hpx, rfl⟩
    · exact h
    · simp only [decide_eq_true_eq] at hpx
      exfalso
      exact hne (by simp [hpx])

/-- C4 witness: the amended theorem applied to the fixture store holding one
RUNNING job with a stored cursor. -/
theorem completeSyncJob_fields_witness :
    storeTok.syncJobs.find? (fun j => j.id = 0)
        = some { jobZero with nextPageToken := some "tok" } ∧
    ((∃ j₁ ∈ (completeSyncJob (some 0) JobStatus.FAILED (some "boom") 7
          storeTok).syncJobs,
        j₁.id = ({ jobZero with nextPageToken := some "tok" } : SyncJobRow).id ∧
        j₁.status = JobStatus.FAILED ∧ j₁.completedAt = some 7 ∧
        j₁.nextPageToken
          = ({ jobZero with nextPageToken := some "tok" } : SyncJobRow).nextPageToken ∧
        (JobStatus.FAILED = JobStatus.COMPLETED → j₁.progress = 100) ∧
        (JobStatus.FAILED ≠ JobStatus.COMPLETED →
          j₁.progress = ({ jobZero with nextPageToken := some "tok" } : SyncJobRow).progress)) ∧
     (∀ j₁ ∈ (completeSyncJob (some 0) JobStatus.FAILED (some "boom") 7
          storeTok).syncJobs,
        j₁.id ≠ 0 → j₁ ∈ storeTok.syncJobs)) :=
  ⟨by rfl,
   completeSyncJob_fields storeTok 0 JobStatus.FAILED (some "boom") 7
     { jobZero with nextPageToken := some "tok" } (by rfl)⟩

/-! ## C9: syncAttachment -/

/-- C9 counterexample: with no existing row for the pair (5, a1) and a
download that yields no data, syncAttachment leaves the store unchanged and
creates no attachment row for the pair, so the otherwise branch of the claim
(exactly one row is created) fails. -/
theorem syncAttachment_no_data_no_row_cex :
    (emptyStore.attachments.filter (fun a => a.messageId = 5 ∧
        a.gmailAttachmentId = "a1")).length = 0 ∧
    syncAttachment "u" (fun _ _ => none) 5 "m1" attA1 emptyStore = emptyStore ∧
    ((syncAttachment "u" (fun _ _ => none) 5 "m1" attA1 emptyStore).attachments.filter
        (fun a => a.messageId = 5 ∧ a.gmailAttachmentId = "a1")).length = 0 := by
  exact ⟨rfl, rfl, rfl⟩

/-- C9 (amended): when an attachment row for (messageId, external attachment
id) already exists, syncAttachment returns the store unchanged whatever the
download function is, so nothing is downloaded, uploaded or created; when no
such row exists and the download yields truthy data, exactly one row for the
pair is created; when no such row exists and the download yields no data,
the store is unchanged. -/
theorem syncAttachment_skip_and_create (uid : String)
    (getAttach : String → String → Option String) (mid : Nat)
    (gmid : String) (att : AttachmentDescr) (s : Store) :
    ((s.attachments.any (fun a => a.messageId = mid ∧
        a.gmailAttachmentId = att.attachmentId)) →
      ∀ getAttach2, syncAttachment uid getAttach2 mid gmid att s = s) ∧
    ((¬ s.attachments.any (fun a => a.messageId = mid ∧
        a.gmailAttachmentId = att.attachmentId)) →
      optStrTruthy (getAttach gmid att.attachmentId) →
      ((syncAttachment uid getAttach mid gmid att s).attachments.filter
          (fun a => a.messageId = mid ∧ a.gmailAttachmentId = att.attachmentId)).length
        = 1) ∧
    ((¬ s.attachments.any (fun a => a.messageId = mid ∧
        a.gmailAttachmentId = att.attachmentId)) →
      ¬ optStrTruthy (getAttach gmid att.attachmentId) →
      syncAttachment uid getAttach mid gmid att s = s) := by
  refine ⟨fun hex g2 => ?_, fun hnex hdata => ?_, fun hnex hdata => ?_⟩
  · simp only [syncAttachment, hex, if_pos]
  · have hfilter : s.attachments.filter (fun a => a.messageId = mid ∧
        a.gmailAttachmentId = att.attachmentId) = [] := by
      rw [List.filter_eq_nil_iff]
      intro a ha
      have := (List.any_eq_true.not.mp hnex)
      push_neg at this
      exact this a ha
    simp only [syncAttachment, hnex, Bool.false_eq_true, if_neg, not_false_iff,
      hdata, not_true, uploadToS3]
    simp only [List.filter_append, hfilter, List.nil_append, List.length_append]
    simp
  · simp only [syncAttachment, hnex, Bool.false_eq_true, if_neg, not_false_iff, hdata]
    simp

/-- C9 witness: the amended theorem applied at a store already holding the
row for the pair, and the fixture store with an available download. -/
theorem syncAttachment_skip_and_create_witness :
    (({ emptyStore with attachments :=
          [{ id := 9, messageId := 5, filename := "f.txt", mimeType := "text/plain",
             size := 3, s3Key := "k", gmailAttachmentId := "a1" }] } : Store).attachments.any
        (fun a => a.messageId = 5 ∧ a.gmailAttachmentId = attA1.attachmentId)) ∧
    (∀ g2, syncAttachment "u" g2 5 "m1" attA1
        ({ emptyStore with attachments :=
          [{ id := 9, messageId := 5, filename := "f.txt", mimeType := "text/plain",
             size := 3, s3Key := "k", gmailAttachmentId := "a1" }] } : Store)
      = ({ emptyStore with attachments :=
          [{ id := 9, messageId := 5, filename := "f.txt", mimeType := "text/plain",
             size := 3, s3Key := "k", gmailAttachmentId := "a1" }] } : Store)) ∧
    ((syncAttachment "u" (fun _ _ => some "ZGF0YQ==") 5 "m1" attA1
        emptyStore).attachments.filter
        (fun a => a.messageId = 5 ∧ a.gmailAttachmentId = attA1.attachmentId)).length
      = 1 := by
  refine ⟨by decide, ?_, ?_⟩
  · exact (syncAttachment_skip_and_create "u" (fun _ _ => none) 5 "m1" attA1
      ({ emptyStore with attachments :=
          [{ id := 9, messageId := 5, filename := "f.txt", mimeType := "text/plain",
             size := 3, s3Key := "k", gmailAttachmentId := "a1" }] } : Store)).1 (by decide)
  · exact (syncAttachment_skip_and_create "u" (fun _ _ => some "ZGF0YQ==") 5 "m1" attA1
      emptyStore).2.1 (by decide) (by decide)

/-! ## C10: attachment parts in extractEmailContent -/

/-- C10 counterexample: a part with a non-empty filename and a present but
empty body.attachmentId is not recorded as an attachment descriptor; the JS
truthiness test rejects the empty string, so the part instead contributes
its body to the extracted html. -/
theorem attachment_part_empty_id_cex :
    processPayloadPart { html := none, text := none, attachments := [] }
        (PayloadPart.mk "text/html" "a.txt"
          (some { attachmentId := some "", size := 5, data := some "x" }) [])
      = { html := some "x", text := none, attachments := [] } := by
  rw [processPayloadPart]
  norm_num [optStrTruthy, base64ToUtf8]
  rw [processParts]
  decide

/-- C10 (amended): every payload part with a non-empty filename and a
non-empty body.attachmentId is recorded solely as an attachment descriptor
(filename, mimeType, attachmentId, size) and processing of that part stops
there: the html and text fields are unchanged and the nested sub-parts are
never traversed. A present but empty attachment id does not count, as the
counterexample shows. -/
theorem processPayloadPart_attachment_stops (st : ExtractResult)
    (mt fn : String) (b : Option PartBody) (ps : List PayloadPart) (aid : String)
    (hfn : fn ≠ "") (haid : b.bind PartBody.attachmentId = some aid)
    (hne : aid ≠ "") :
    processPayloadPart st (PayloadPart.mk mt fn b ps)
      = { st with attachments := st.attachments ++
          [{ filename := fn, mimeType := mt, attachmentId := aid,
             size := (b.map PartBody.size).getD 0 }] } := by
  rw [processPayloadPart]
  rw [if_pos ⟨hfn, by rw [haid]; simpa [optStrTruthy] using hne⟩]
  rw [haid]
  rfl

/-- C10 witness: the theorem applied to a pdf attachment part carrying both a
nested sub-part and body data, which contribute nothing. -/
theorem processPayloadPart_attachment_stops_witness :
    ("a.pdf" ≠ "") ∧
    ((some bodyAtt9).bind PartBody.attachmentId = some "att9") ∧
    ("att9" ≠ "") ∧
    processPayloadPart { html := none, text := none, attachments := [] }
        (PayloadPart.mk "application/pdf" "a.pdf" (some bodyAtt9) [subPartHtml])
      = { html := none, text := none,
          attachments := [{ filename := "a.pdf", mimeType := "application/pdf",
                            attachmentId := "att9", size := 5 }] } :=
  ⟨by decide, by decide, by decide,
   processPayloadPart_attachment_stops
     { html := none, text := none, attachments := [] }
     "application/pdf" "a.pdf" (some bodyAtt9) [subPartHtml]
     "att9" (by decide) (by decide) (by decide)⟩

/-! ## C6: label reconciliation -/

/-- C6: the bulk label reconciliation fails on a batch that contains a
fetched thread with no messages. Thread t1 is fetched with a last message
carrying exactly the INBOX label, and the owner has an INBOX label row with
id 2, so after reconciliation the claim expects the LabelThread rows of
thread 1 to be exactly the pair (2, 1) and the stale pair (3, 1) to be gone.
Because the empty thread t0 precedes t1 in the batch, threadsToCreate skips
t0 while the index pairing of validThreads with createdThreads does not,
so t1 is paired with no created row, its reconciliation is skipped entirely
and the stale association survives; the same batch without t0 reconciles
correctly. -/
theorem syncThreadLabelsBulk_stale_survives :
    (syncThreadsBulk "u" fetchC6 (fun _ _ => none)
        [⟨"t0"⟩, ⟨"t1"⟩] storeC6).1.labelThreads = [{ labelId := 3, threadId := 1 }] ∧
    (syncThreadsBulk "u" fetchC6 (fun _ _ => none)
        [⟨"t1"⟩] storeC6).1.labelThreads = [{ labelId := 2, threadId := 1 }] := by
  exact ⟨rfl, rfl⟩

/-! ## C3: at most one RUNNING job per owner -/

/-- C3 counterexample: the continuous entry point creates a RUNNING job
without looking for an existing one; started from a store that satisfies the
at-most-one-RUNNING invariant with one RUNNING job for the owner, its very
first step leaves two RUNNING jobs for that owner. -/
theorem syncMailbox_create_breaks_single_running_cex :
    atMostOneRunning "u" storeOneRunning ∧
    ¬ atMostOneRunning "u" (syncMailboxCreateJob "u" SyncType.FULL 5 storeOneRunning).1 := by
  unfold atMostOneRunning
  constructor
  · decide
  · decide

/-! ## C8: the completion condition of syncBatch -/

theorem updateFirst_hit {p : α → Bool} (f : α → α) {l : List α}
    (h : ∃ x ∈ l, p x = true) :
    ∃ x ∈ l, p x = true ∧ f x ∈ updateFirst p f l := by
  induction l with
  | nil => rcases h with ⟨x, hx, _⟩; cases hx
  | cons a as ih =>
    by_cases ha : p a
    · refine ⟨a, List.mem_cons_self a as, ha, ?_⟩
      simp only [updateFirst, ha, if_pos]
      exact List.mem_cons_self _ _
    · rcases h with ⟨x, hx, hpx⟩
      rcases List.mem_cons.mp hx with rfl | hxs
      · exact absurd hpx ha
      · rcases ih ⟨x, hxs, hpx⟩ with ⟨y, hy, hpy, hmem⟩
        refine ⟨y, List.mem_cons_of_mem a hy, hpy, ?_⟩
        simp only [updateFirst, ha, Bool.false_eq_true, if_neg, not_false_iff]
        exact List.mem_cons_of_mem a hmem

theorem updateJob_users (jid : Nat) (f : SyncJobRow → SyncJobRow) (s : Store) :
    (updateJob jid f s).users = s.users := rfl

theorem completeSyncJob_users (jid : Option Nat) (st : JobStatus)
    (err : Option String) (now : Nat) (s : Store) :
    (completeSyncJob jid st err now s).users = s.users := by
  unfold completeSyncJob
  cases jid with
  | none => rfl
  | some j => rfl

theorem updateJob_id_present (jid : Nat) (f : SyncJobRow → SyncJobRow)
    (hf : ∀ x, (f x).id = x.id) (s : Store)
    (h : ∃ x ∈ s.syncJobs, x.id = jid) :
    ∃ x ∈ (updateJob jid f s).syncJobs, x.id = jid := by
  unfold updateJob
  dsimp only
  refine updateFirst_exists (fun x => x.id = jid) ?_ h
  intro x hx
  show (f x).id = jid
  rw [hf x]
  exact hx

theorem completeSyncJob_marks (jid : Nat) (err : Option String) (now : Nat)
    (s : Store) (hmem : ∃ x ∈ s.syncJobs, x.id = jid) :
    ∃ j ∈ (completeSyncJob (some jid) JobStatus.COMPLETED err now s).syncJobs,
      j.id = jid ∧ j.status = JobStatus.COMPLETED ∧ j.completedAt = some now := by
  unfold completeSyncJob updateJob
  dsimp only
  have h' : ∃ x ∈ s.syncJobs, (fun j => decide (j.id = jid)) x = true := by
    rcases hmem with ⟨x, hx, hid⟩
    exact ⟨x, hx, by simp [hid]⟩
  rcases updateFirst_hit _ h' with ⟨x, hx, hpx, hfx⟩
  refine ⟨_, hfx, ?_, rfl, rfl⟩
  simpa using hpx

theorem updateUserSync_marks (now : Nat) (uid : String) (s : Store)
    (hU : ∃ u ∈ s.users, u.id = uid) :
    ∃ u ∈ (updateUserSync uid
        (fun u => { u with syncStatus := "COMPLETED", lastSyncedAt := some now })
        s).users, u.id = uid ∧ u.lastSyncedAt = some now := by
  unfold updateUserSync
  dsimp only
  have h' : ∃ x ∈ s.users, (fun u => decide (u.id = uid)) x = true := by
    rcases hU with ⟨x, hx, hid⟩
    exact ⟨x, hx, by simp [hid]⟩
  rcases updateFirst_hit _ h' with ⟨x, hx, hpx, hfx⟩
  refine ⟨_, hfx, ?_, rfl⟩
  simpa using hpx

theorem updateJob_running_row (jid : Nat) (tok : Option String)
    (pi ti : Nat) (pr : ℤ) (s : Store) (j0 : SyncJobRow)
    (hmem : j0 ∈ s.syncJobs) (hid : j0.id = jid)
    (hnd : (s.syncJobs.map (fun j => j.id)).Nodup)
    (hst : j0.status = JobStatus.RUNNING) :
    ∃ j ∈ (updateJob jid (fun j =>
        { j with nextPageToken := tok, processedItems := pi, totalItems := ti,
                 progress := pr }) s).syncJobs,
      j.id = jid ∧ j.status = JobStatus.RUNNING ∧ j.nextPageToken = tok := by
  unfold updateJob
  dsimp only
  have h' : ∃ x ∈ s.syncJobs, (fun j => decide (j.id = jid)) x = true :=
    ⟨j0, hmem, by simp [hid]⟩
  rcases updateFirst_hit _ h' with ⟨x, hx, hpx, hfx⟩
  have hxid : x.id = jid := by simpa using hpx
  have hxj : x = j0 :=
    List.inj_on_of_nodup_map hnd hx hmem (show x.id = j0.id by omega)
  refine ⟨_, hfx, hxid, ?_, rfl⟩
  show x.status = JobStatus.RUNNING
  rw [hxj]
  exact hst

theorem findOrCreateSyncJob_state (uid : String) (now : Nat) (lr : List GmailLabel)
    (s : Store) (hNodup : (s.syncJobs.map (fun j => j.id)).Nodup)
    (hIds : ∀ j ∈ s.syncJobs, j.id < s.nextId) :
    (findOrCreateSyncJob uid now lr s).2 ∈ (findOrCreateSyncJob uid now lr s).1.syncJobs ∧
    ((findOrCreateSyncJob uid now lr s).1.syncJobs.map (fun j => j.id)).Nodup ∧
    (findOrCreateSyncJob uid now lr s).1.users = s.users ∧
    (findOrCreateSyncJob uid now lr s).2.status = JobStatus.RUNNING := by
  unfold findOrCreateSyncJob
  dsimp only
  split
  · next j heq =>
    have h := findRunningJob_some_mem uid s j heq
    exact ⟨h.1, hNodup, rfl, h.2.2⟩
  · refine ⟨?_, ?_, ?_, rfl⟩
    · rw [(syncLabels_frame uid lr _).2.2.2.2.1]
      exact List.mem_append_right _ (List.mem_singleton_self _)
    · rw [(syncLabels_frame uid lr _).2.2.2.2.1]
      dsimp only
      rw [List.map_append]
      refine (List.nodup_append).mpr ⟨hNodup, List.nodup_singleton _, ?_⟩
      intro a ha hb
      rcases List.mem_map.mp ha with ⟨j, hj, hid⟩
      have hlt := hIds j hj
      have hid' : j.id = a := hid
      simp only [List.map_cons, List.map_nil, List.mem_singleton] at hb
      omega
    · rw [(syncLabels_frame uid lr _).2.2.2.2.2.1]

/-- C8 counterexample: a mailbox page that is empty but still carries a
continuation cursor is reported as completed: the empty-items branch of
syncBatch completes the job and stamps the owner without consulting the
returned nextPageToken, so completed = true is returned while the upstream
pagination is not exhausted, contradicting the claimed iff. -/
theorem syncBatch_empty_page_with_token_cex :
    (listEmptyWithToken 20 none).nextPageToken = some "t2" ∧
    (syncBatch "u" 5 [] listEmptyWithToken (fun _ => none) (fun _ _ => none)
        storeUserOnly).2.completed = true ∧
    (∃ j ∈ (syncBatch "u" 5 [] listEmptyWithToken (fun _ => none) (fun _ _ => none)
        storeUserOnly).1.syncJobs, j.status = JobStatus.COMPLETED) ∧
    (∃ u ∈ (syncBatch "u" 5 [] listEmptyWithToken (fun _ => none) (fun _ _ => none)
        storeUserOnly).1.users, u.lastSyncedAt = some 5) := by
  refine ⟨rfl, rfl, ?_, ?_⟩
  · decide
  · decide

/-- C8 (amended): syncBatch returns completed = true iff the mailbox listing
for the stored cursor reports an empty page or no further page token; in
exactly that case the job row of the batch is marked COMPLETED with
completedAt stamped and the owner's lastSyncedAt is updated, and otherwise
the job row stays RUNNING with the new cursor stored and the user table is
untouched. An empty page that still carries a continuation cursor is
reported as completed, as the counterexample shows, so completion does not
coincide with cursor exhaustion alone. -/
theorem syncBatch_completed_iff (uid : String) (now : Nat) (lr : List GmailLabel)
    (lt : Nat → Option String → ListThreadsResp)
    (f : String → Option GmailThreadData) (g : String → String → Option String)
    (s : Store) (fc : Store × SyncJobRow) (resp : ThreadBatchResp)
    (r : Store × BatchResult)
    (hfc : fc = findOrCreateSyncJob uid now lr s)
    (hresp : resp = getNextThreadBatch lt 20 fc.2.nextPageToken)
    (hr : r = syncBatch uid now lr lt f g s)
    (hNodup : (s.syncJobs.map (fun j => j.id)).Nodup)
    (hIds : ∀ j ∈ s.syncJobs, j.id < s.nextId)
    (hU : ∃ u ∈ s.users, u.id = uid) :
    (r.2.completed = true ↔ (resp.items = [] ∨ resp.nextPageToken = none)) ∧
    (r.2.completed = true →
      (∃ j ∈ r.1.syncJobs, j.id = fc.2.id ∧ j.status = JobStatus.COMPLETED ∧
        j.completedAt = some now) ∧
      (∃ u ∈ r.1.users, u.id = uid ∧ u.lastSyncedAt = some now)) ∧
    (r.2.completed = false →
      (∃ j ∈ r.1.syncJobs, j.id = fc.2.id ∧ j.status = JobStatus.RUNNING ∧
        j.nextPageToken = resp.nextPageToken) ∧
      r.1.users = s.users) := by
  subst hfc
  subst hresp
  subst hr
  have hstate := findOrCreateSyncJob_state uid now lr s hNodup hIds
  unfold syncBatch
  dsimp only
  set FC := findOrCreateSyncJob uid now lr s with hFC
  set TB := getNextThreadBatch lt 20 FC.2.nextPageToken with hTB
  split
  · rename_i hlen
    have hitems : TB.items = [] := List.length_eq_zero.mp hlen
    refine ⟨iff_of_true rfl (Or.inl hitems), fun _ => ⟨?_, ?_⟩,
      fun hcon => Bool.noConfusion hcon⟩
    · rw [updateUserSync_syncJobs]
      exact completeSyncJob_marks FC.2.id none now FC.1 ⟨FC.2, hstate.1, rfl⟩
    · refine updateUserSync_marks now uid _ ?_
      rw [completeSyncJob_users, hstate.2.2.1]
      exact hU
  · rename_i hlen
    have hjobsB : (syncThreadsBulk uid f g TB.items FC.1).1.syncJobs = FC.1.syncJobs :=
      (persistBulk_jobs_users _ _ _ _ _).1
    have husersB : (syncThreadsBulk uid f g TB.items FC.1).1.users = FC.1.users :=
      (persistBulk_jobs_users _ _ _ _ _).2
    split
    · rename_i htok
      refine ⟨⟨fun _ => Or.inr htok, fun _ => by simp [htok]⟩, fun _ => ⟨?_, ?_⟩,
        fun hcon => ?_⟩
      · rw [updateUserSync_syncJobs]
        refine completeSyncJob_marks FC.2.id none now _ ?_
        refine updateJob_id_present FC.2.id _ ?_ _ ?_
        · intro x
          rfl
        · rw [hjobsB]
          exact ⟨FC.2, hstate.1, rfl⟩
      · refine updateUserSync_marks now uid _ ?_
        rw [completeSyncJob_users, updateJob_users, husersB, hstate.2.2.1]
        exact hU
      · rw [htok] at hcon
        simp at hcon
    · rename_i htok
      refine ⟨⟨fun hc => ?_, fun hor => ?_⟩, fun hcon => ?_, fun _ => ⟨?_, ?_⟩⟩
      · simp only [decide_eq_true_eq] at hc
        exact absurd hc htok
      · rcases hor with hc | hc
        · exact absurd (List.length_eq_zero.mpr hc) hlen
        · exact absurd hc htok
      · simp only [decide_eq_true_eq] at hcon
        exact absurd hcon htok
      · refine updateJob_running_row FC.2.id TB.nextPageToken _ _ _ _ FC.2 ?_ rfl ?_
          hstate.2.2.2
        · rw [hjobsB]
          exact hstate.1
        · rw [hjobsB]
          exact hstate.2.1
      · rw [updateJob_users, husersB, hstate.2.2.1]

/-- C8 witness: the amended theorem applied to the store holding only the
owner row and the mailbox listing that returns an empty page with a
continuation cursor. -/
theorem syncBatch_completed_iff_witness :
    ((storeUserOnly.syncJobs.map (fun j => j.id)).Nodup ∧
     (∀ j ∈ storeUserOnly.syncJobs, j.id < storeUserOnly.nextId) ∧
     (∃ u ∈ storeUserOnly.users, u.id = "u")) ∧
    (((syncBatch "u" 5 [] listEmptyWithToken (fun _ => none) (fun _ _ => none)
          storeUserOnly).2.completed = true ↔
        (([] : List ThreadStub) = [] ∨ (some "t2" : Option String) = none)) ∧
     ((syncBatch "u" 5 [] listEmptyWithToken (fun _ => none) (fun _ _ => none)
          storeUserOnly).2.completed = true →
       (∃ j ∈ (syncBatch "u" 5 [] listEmptyWithToken (fun _ => none) (fun _ _ => none)
            storeUserOnly).1.syncJobs,
          j.id = (findOrCreateSyncJob "u" 5 [] storeUserOnly).2.id ∧
          j.status = JobStatus.COMPLETED ∧ j.completedAt = some 5) ∧
       (∃ u ∈ (syncBatch "u" 5 [] listEmptyWithToken (fun _ => none) (fun _ _ => none)
            storeUserOnly).1.users, u.id = "u" ∧ u.lastSyncedAt = some 5)) ∧
     ((syncBatch "u" 5 [] listEmptyWithToken (fun _ => none) (fun _ _ => none)
          storeUserOnly).2.completed = false →
       (∃ j ∈ (syncBatch "u" 5 [] listEmptyWithToken (fun _ => none) (fun _ _ => none)
            storeUserOnly).1.syncJobs,
          j.id = (findOrCreateSyncJob "u" 5 [] storeUserOnly).2.id ∧
          j.status = JobStatus.RUNNING ∧
          j.nextPageToken = (some "t2" : Option String)) ∧
       (syncBatch "u" 5 [] listEmptyWithToken (fun _ => none) (fun _ _ => none)
          storeUserOnly).1.users = storeUserOnly.users)) :=
  ⟨⟨by decide, by decide, by decide⟩,
   syncBatch_completed_iff "u" 5 [] listEmptyWithToken (fun _ => none) (fun _ _ => none)
     storeUserOnly (findOrCreateSyncJob "u" 5 [] storeUserOnly)
     { items := [], nextPageToken := some "t2", resultSizeEstimate := 5 }
     (syncBatch "u" 5 [] listEmptyWithToken (fun _ => none) (fun _ _ => none)
       storeUserOnly)
     rfl (by decide) rfl (by decide) (by decide) (by decide)⟩

end GmailSyncModel
